import Mathlib

/-!
# Verification of the phosphor `GridCanvas` incremental repaint engine

Shallow embedding of `src/grid/gridcanvas.ts`: the scroll-blit engine
(`scrollTo`), the resize handler (`onResize`), and the paint pipeline
(`_paint`, `_drawBackground`, `_drawGridLines`, `_drawCells`).

JavaScript numbers are modelled by `JSNum` (NaN, the two infinities, and a
finite rational) where the code's coercions can meet non-finite input
(the scroll offsets).  Pixel geometry is carried in `ℚ`; all reachable
pixel quantities are integers, and the claims' hypotheses pin the values
they need.  Canvas-context side effects are reified as traces: `Effect`
for the blit/repaint requests issued by the scroll and resize handlers,
and `DrawOp` for the drawing commands issued by the paint pipeline.
-/

/-- A JavaScript number: NaN, ±Infinity, or a finite value (modelled as a
rational, which covers every value the grid code manipulates exactly). -/
inductive JSNum where
  | nan : JSNum
  | posInf : JSNum
  | negInf : JSNum
  | fin : ℚ → JSNum
deriving DecidableEq, Repr

/-- JavaScript subtraction `a - b` on `JSNum`. -/
def jsub : JSNum → JSNum → JSNum
  | JSNum.nan, _ => JSNum.nan
  | _, JSNum.nan => JSNum.nan
  | JSNum.posInf, JSNum.posInf => JSNum.nan
  | JSNum.posInf, _ => JSNum.posInf
  | JSNum.negInf, JSNum.negInf => JSNum.nan
  | JSNum.negInf, _ => JSNum.negInf
  | JSNum.fin _, JSNum.posInf => JSNum.negInf
  | JSNum.fin _, JSNum.negInf => JSNum.posInf
  | JSNum.fin a, JSNum.fin b => JSNum.fin (a - b)

/-- JavaScript comparison `a < b` (false whenever either side is NaN). -/
def jlt : JSNum → JSNum → Bool
  | JSNum.nan, _ => false
  | _, JSNum.nan => false
  | JSNum.negInf, JSNum.negInf => false
  | JSNum.negInf, _ => true
  | _, JSNum.negInf => false
  | JSNum.posInf, _ => false
  | JSNum.fin _, JSNum.posInf => true
  | JSNum.fin a, JSNum.fin b => decide (a < b)

/-- JavaScript comparison `a <= b` (false whenever either side is NaN). -/
def jle : JSNum → JSNum → Bool
  | JSNum.nan, _ => false
  | _, JSNum.nan => false
  | JSNum.negInf, _ => true
  | _, JSNum.negInf => false
  | _, JSNum.posInf => true
  | JSNum.posInf, _ => false
  | JSNum.fin a, JSNum.fin b => decide (a ≤ b)

/-- JavaScript `Math.abs`. -/
def jabs : JSNum → JSNum
  | JSNum.nan => JSNum.nan
  | JSNum.posInf => JSNum.posInf
  | JSNum.negInf => JSNum.posInf
  | JSNum.fin a => JSNum.fin |a|

/-- JavaScript unary negation. -/
def jneg : JSNum → JSNum
  | JSNum.nan => JSNum.nan
  | JSNum.posInf => JSNum.negInf
  | JSNum.negInf => JSNum.posInf
  | JSNum.fin a => JSNum.fin (-a)

/-- JavaScript `Math.round`: finite values round half toward `+∞`;
NaN and the infinities pass through. -/
def jround : JSNum → JSNum
  | JSNum.nan => JSNum.nan
  | JSNum.posInf => JSNum.posInf
  | JSNum.negInf => JSNum.negInf
  | JSNum.fin a => JSNum.fin (⌊a + 1 / 2⌋ : ℤ)

/-- JavaScript `Math.max(0, x)` (NaN propagates, `-Infinity` clamps to 0). -/
def jmax0 : JSNum → JSNum
  | JSNum.nan => JSNum.nan
  | JSNum.posInf => JSNum.posInf
  | JSNum.negInf => JSNum.fin 0
  | JSNum.fin a => JSNum.fin (max 0 a)

/-- JavaScript strict equality with the literal `0` (`x === 0`). -/
def jisZero : JSNum → Bool
  | JSNum.fin a => decide (a = 0)
  | _ => false

/-- The finite value of a `JSNum` (junk value 0 on NaN/±∞; used only where
the surrounding code guarantees finiteness). -/
def JSNum.toQ : JSNum → ℚ
  | JSNum.fin a => a
  | _ => 0

/-- The scroll coercion at the top of `scrollTo`:
`Math.max(0, Math.round(v))`. -/
def scrollCoerce (v : JSNum) : JSNum := jmax0 (jround v)

/-- A canvas-context side effect requested by the scroll or resize handler:
either a `drawImage` self-blit (source rect, then destination offset) or a
call into the `_paint` pipeline for a dirty rect. -/
inductive Effect where
  | blit : (srcX srcY imgW imgH dstX dstY : ℚ) → Effect
  | paint : (rx ry rw rh : ℚ) → Effect
deriving DecidableEq, Repr

/-- The state read and written by `scrollTo`: the stored scroll offsets
(JavaScript numbers), the canvas pixel size, and the widget visibility. -/
structure ScrollState where
  scrollX : JSNum
  scrollY : JSNum
  canvasWidth : ℕ
  canvasHeight : ℕ
  isVisible : Bool
deriving DecidableEq, Repr

/-- The per-axis blit variables of `scrollTo`'s blit branch: source and
destination offsets, the blitted extent, and the near/far dirty margins
(`left`/`right` for the horizontal axis, `top`/`bottom` for the
vertical). -/
structure AxisVars where
  src : ℚ
  dst : ℚ
  img : ℚ
  lo : ℚ
  hi : ℚ
deriving DecidableEq, Repr

/-- One axis of `scrollTo`'s blit setup (the code repeats this `if` chain
for `dx` and for `dy`).  In this branch the delta is finite or NaN (an
infinite delta always takes the full-repaint branch); a NaN delta fails
both sign tests and keeps the defaults, so the values are carried in `ℚ`
via `JSNum.toQ`. -/
def axisVars (extent : ℕ) (delta : JSNum) : AxisVars :=
  if jlt delta (JSNum.fin 0) then
    let m := (jneg delta).toQ
    ⟨0, m, (extent : ℚ) - m, m, 0⟩
  else if jlt (JSNum.fin 0) delta then
    let m := delta.toQ
    ⟨m, 0, (extent : ℚ) - m, 0, m⟩
  else ⟨0, 0, (extent : ℚ), 0, 0⟩

/-- Embedding of `GridCanvas.scrollTo` (gridcanvas.ts lines 281-380).
Returns the updated state together with the trace of canvas effects:
the optional self-blit and the `_paint` calls for the dirty margins. -/
def scrollTo (st : ScrollState) (x y : JSNum) : ScrollState × List Effect :=
  -- Coerce the desired scroll position to integers `>= 0`.
  let x := scrollCoerce x
  let y := scrollCoerce y
  -- Compute the delta scroll amount.
  let dx := jsub x st.scrollX
  let dy := jsub y st.scrollY
  -- Bail early if there is no effective scroll.
  if jisZero dx && jisZero dy then (st, [])
  else
    -- Update the internal scroll position.
    let st := { st with scrollX := x, scrollY := y }
    -- Bail early if the widget is not visible.
    if !st.isVisible then (st, [])
    else
      let width := st.canvasWidth
      let height := st.canvasHeight
      -- Bail early if the canvas is empty.
      if width = 0 || height = 0 then (st, [])
      -- Paint everything if either delta is larger than the viewport.
      else if jle (JSNum.fin width) (jabs dx) || jle (JSNum.fin height) (jabs dy) then
        (st, [Effect.paint 0 0 width height])
      else
        -- Compute the blit and margin values for each axis.
        let hv := axisVars width dx
        let vv := axisVars height dy
        ( st
        , Effect.blit hv.src vv.src hv.img vv.img hv.dst vv.dst ::
            ((if 0 < hv.lo then [Effect.paint 0 0 hv.lo height] else []) ++
             (if 0 < hv.hi then
                [Effect.paint ((width : ℚ) - hv.hi) 0 hv.hi height] else []) ++
             (if 0 < vv.lo then
                [Effect.paint hv.lo 0 ((width : ℚ) - hv.lo - hv.hi) vv.lo] else []) ++
             (if 0 < vv.hi then
                [Effect.paint hv.lo ((height : ℚ) - vv.hi)
                   ((width : ℚ) - hv.lo - hv.hi) vv.hi]
              else [])) )

/-- An axis-aligned pixel rectangle with rational coordinates. -/
structure QRect where
  x : ℚ
  y : ℚ
  w : ℚ
  h : ℚ
deriving DecidableEq, Repr

/-- Membership of a point in a rectangle (half-open on the far edges). -/
def QRect.mem (r : QRect) (p : ℚ × ℚ) : Prop :=
  r.x ≤ p.1 ∧ p.1 < r.x + r.w ∧ r.y ≤ p.2 ∧ p.2 < r.y + r.h

instance (r : QRect) (p : ℚ × ℚ) : Decidable (r.mem p) := by
  unfold QRect.mem; infer_instance

/-- The left dirty strip of a blit-scroll with deltas `(d, e)` on a
`w × h` surface: width `max 0 (-d)`, full height. -/
def leftStrip (w h d e : ℚ) : QRect := ⟨0, 0, max 0 (-d), h⟩

/-- The right dirty strip: width `max 0 d`, full height. -/
def rightStrip (w h d e : ℚ) : QRect := ⟨w - max 0 d, 0, max 0 d, h⟩

/-- The top dirty strip: the horizontal span left over between the left and
right strips, height `max 0 (-e)`. -/
def topStrip (w h d e : ℚ) : QRect :=
  ⟨max 0 (-d), 0, w - max 0 (-d) - max 0 d, max 0 (-e)⟩

/-- The bottom dirty strip: same horizontal span, height `max 0 e`. -/
def bottomStrip (w h d e : ℚ) : QRect :=
  ⟨max 0 (-d), h - max 0 e, w - max 0 (-d) - max 0 d, max 0 e⟩

/-- The destination rectangle of the blit: what remains of the surface
after removing the four margin strips. -/
def blitDest (w h d e : ℚ) : QRect :=
  ⟨max 0 (-d), max 0 (-e), w - max 0 (-d) - max 0 d, h - max 0 (-e) - max 0 e⟩

/-- The full surface rectangle. -/
def surfaceRect (w h : ℚ) : QRect := ⟨0, 0, w, h⟩

/-- The `_paint` request for one dirty strip. -/
def stripPaint (r : QRect) : Effect := Effect.paint r.x r.y r.w r.h

/-- The margin repaints of a blit-scroll: the strips with positive area, in
the source's order (left, right, top, bottom). -/
def marginPaints (w h d e : ℚ) : List Effect :=
  (([leftStrip w h d e, rightStrip w h d e,
     topStrip w h d e, bottomStrip w h d e]).filter
      (fun r => decide (0 < r.w ∧ 0 < r.h))).map stripPaint

/-- A raster surface, as a total pixel-lookup function.  Only the integer
points inside the canvas bounds are meaningful; totalising over `ℚ` keeps
the geometry uniform. -/
def PixelMap : Type := ℚ → ℚ → ℤ

/-- Membership test for the interpreter (Boolean form of `QRect.mem`). -/
def inRect (rx ry rw rh px py : ℚ) : Bool :=
  decide (rx ≤ px ∧ px < rx + rw ∧ ry ≤ py ∧ py < ry + rh)

/-- Interpret one canvas effect on a pixel map.  A `blit` copies the source
rectangle of the *current* image to the destination offset (the 2D context
snapshots the source before writing, so a self-`drawImage` reads the old
pixels).  A `paint` hands the rect to the paint pipeline, which writes only
inside the dirty rect: `_paint`'s unconditional fill covers exactly the
rect and every later drawing command is clipped to it, so its output is
abstracted by the arbitrary `painter` function. -/
def applyEffect (painter : ℚ → ℚ → ℚ → ℚ → ℚ → ℚ → ℤ) (s : PixelMap) :
    Effect → PixelMap
  | Effect.blit srcX srcY imgW imgH dstX dstY => fun px py =>
      if inRect dstX dstY imgW imgH px py then
        s (px - dstX + srcX) (py - dstY + srcY)
      else s px py
  | Effect.paint rx ry rw rh => fun px py =>
      if inRect rx ry rw rh px py then painter rx ry rw rh px py
      else s px py

/-- Interpret a list of canvas effects, in order. -/
def applyEffects (painter : ℚ → ℚ → ℚ → ℚ → ℚ → ℚ → ℤ) (s : PixelMap)
    (effs : List Effect) : PixelMap :=
  effs.foldl (applyEffect painter) s

/-- An HTML canvas: pixel dimensions plus a bitmap.  Assigning `width` or
`height` resets every pixel to the cleared value `0`. -/
structure Canvas where
  width : ℤ
  height : ℤ
  data : ℤ → ℤ → ℤ

/-- Resize a canvas: the bitmap is reset to cleared pixels. -/
def Canvas.setSize (c : Canvas) (w h : ℤ) : Canvas :=
  { width := w, height := h, data := fun _ _ => 0 }

/-- `gc.drawImage(src, 0, 0)` on canvas `dst`: copy the source bitmap to
the top-left corner, clipped to both bitmaps. -/
def Canvas.drawImage (dst src : Canvas) : Canvas :=
  { dst with data := fun x y =>
      if 0 ≤ x ∧ x < min src.width dst.width ∧
         0 ≤ y ∧ y < min src.height dst.height then src.data x y
      else dst.data x y }

/-- JavaScript `Math.round` restricted to a finite value. -/
def roundQ (q : ℚ) : ℤ := ⌊q + 1 / 2⌋

/-- `ResizeMessage` dimension resolution: `-1` means "measure the node". -/
def resolveDim (v nodeDim : ℚ) : ℚ := if v = -1 then nodeDim else v

/-- The state read and written by `onResize`: visibility, the measured
node size, and the off-screen buffer and on-screen canvas. -/
structure ResizeState where
  isVisible : Bool
  nodeOffsetWidth : ℚ
  nodeOffsetHeight : ℚ
  buffer : Canvas
  canvas : Canvas

/-- Embedding of `GridCanvas.onResize` (gridcanvas.ts lines 478-541).
Returns the updated state and the `_paint` requests for the newly exposed
right and bottom margins. -/
def onResize (st : ResizeState) (msgWidth msgHeight : ℚ) :
    ResizeState × List Effect :=
  -- Bail early if the widget is not visible.
  if !st.isVisible then (st, [])
  else
    -- Measure the node if the dimensions are unknown, then round.
    let width := roundQ (resolveDim msgWidth st.nodeOffsetWidth)
    let height := roundQ (resolveDim msgHeight st.nodeOffsetHeight)
    -- Get the current size of the canvas.
    let oldWidth := st.canvas.width
    let oldHeight := st.canvas.height
    -- Determine whether there is valid content to blit.
    let needBlit := 0 < oldWidth ∧ 0 < oldHeight ∧ 0 < width ∧ 0 < height
    -- Resize the off-screen buffer, then blit the old contents into it.
    let buffer := st.buffer.setSize width height
    let buffer := if needBlit then buffer.drawImage st.canvas else buffer
    -- Resize the on-screen canvas, then blit the buffer back into it.
    let canvas := st.canvas.setSize width height
    let canvas := if needBlit then canvas.drawImage buffer else canvas
    -- Compute the sizes of the dirty regions.
    let right := max 0 (width - oldWidth)
    let bottom := max 0 (height - oldHeight)
    ( { st with buffer := buffer, canvas := canvas }
    , (if 0 < right then [Effect.paint oldWidth 0 right height] else []) ++
      (if 0 < bottom then
         [Effect.paint 0 oldHeight (width - right) bottom] else []) )

/-- The section oracle for one axis (`GridHeader`): covering section index
for a pixel offset (negative means "no section"), and per-section position
and size. -/
structure GridHeader where
  sectionAt : ℚ → ℤ
  sectionPosition : ℤ → ℚ
  sectionSize : ℤ → ℚ

/-- The transient cell-data record the model fills in
(`DataModel.ICellData`). -/
structure CellData where
  value : Option ℤ
  renderer : String
  options : Option ℤ
deriving DecidableEq, Repr

/-- The reset value written into the scratch record before each
`model.cellData` call. -/
def resetCellData : CellData :=
  { value := none, renderer := "default", options := none }

/-- The data model: row/column counts and the in-place cell-data query,
modelled as a function from the scratch record's prior value to its value
after the call. -/
structure DataModel where
  rowCount : ℕ
  columnCount : ℕ
  cellData : ℤ → ℤ → CellData → CellData

/-- The per-cell draw instruction handed to a renderer (`ICellConfig`). -/
structure CellConfig where
  x : ℚ
  y : ℚ
  width : ℚ
  height : ℚ
  row : ℤ
  column : ℤ
  value : Option ℤ
  options : Option ℤ
deriving DecidableEq, Repr

/-- A drawing command issued on the canvas context by the paint pipeline.
Renderers are identified by an opaque id (`ℕ`); `cellPaint r cfg` records
`r.paint(gc, cfg)`. -/
inductive DrawOp where
  | fillRect : String → (rx ry rw rh : ℚ) → DrawOp
  | clipPush : (rx ry rw rh : ℚ) → DrawOp
  | line : (x1 y1 x2 y2 : ℚ) → DrawOp
  | cellPaint : ℕ → CellConfig → DrawOp
  | clipPop : DrawOp
deriving DecidableEq, Repr

/-- The dirty region of a paint pass (`Private.IRegion`). -/
structure Region where
  x : ℚ
  y : ℚ
  width : ℚ
  height : ℚ
  firstRow : ℤ
  firstColumn : ℤ
  rowSizes : List ℚ
  columnSizes : List ℚ
deriving DecidableEq, Repr

/-- The void-space color of `_paint`'s unconditional fill. -/
def voidColor : String := "#D4D4D4"

/-- Embedding of `GridCanvas._drawBackground` (lines 651-657). -/
def drawBackground (rgn : Region) : List DrawOp :=
  [DrawOp.fillRect "white" rgn.x rgn.y rgn.width rgn.height]

/-- The vertical grid-line loop of `_drawGridLines`: the running coordinate
starts at `rgn.x - 0.5` and a line is emitted after adding each column
size (so also after the last one). -/
def vlineOps (y1 y2 : ℚ) : ℚ → List ℚ → List DrawOp
  | _, [] => []
  | x, s :: rest =>
      DrawOp.line (x + s) y1 (x + s) y2 :: vlineOps y1 y2 (x + s) rest

/-- The horizontal grid-line loop of `_drawGridLines`. -/
def hlineOps (x1 x2 : ℚ) : ℚ → List ℚ → List DrawOp
  | _, [] => []
  | y, s :: rest =>
      DrawOp.line x1 (y + s) x2 (y + s) :: hlineOps x1 x2 (y + s) rest

/-- Embedding of `GridCanvas._drawGridLines` (lines 662-693): the vertical
lines over the column sizes, then the horizontal lines over the row sizes,
stroked as one path. -/
def drawGridLines (rgn : Region) : List DrawOp :=
  vlineOps rgn.y (rgn.y + rgn.height) (rgn.x - 1 / 2) rgn.columnSizes ++
  hlineOps rgn.x (rgn.x + rgn.width) (rgn.y - 1 / 2) rgn.rowSizes

/-- The renderer registry: name to renderer id, or absent. -/
def RendererMap : Type := String → Option ℕ

/-- The inner (row) loop of `_drawCells` for one column.  Arguments mirror
the loop state: remaining row sizes, the running row list-index `j`, the
running pixel coordinate `y`, and the renderer-lookup cache
(`rendererName`, `renderer`).  Returns the emitted ops and the cache left
for the rest of the pass.  Note the source's `continue` on a missing
renderer skips the `y += height` increment. -/
def drawCellsRows (m : DataModel) (rend : RendererMap)
    (firstRow column : ℤ) (xpos colWidth : ℚ) :
    List ℚ → ℕ → ℚ → String → Option ℕ →
    List DrawOp × String × Option ℕ
  | [], _, _, name, r => ([], name, r)
  | height :: rest, j, y, name, r =>
      -- Ignore the row if its height is zero.
      if height = 0 then
        drawCellsRows m rend firstRow column xpos colWidth rest (j + 1) y name r
      else
        let row := (j : ℤ) + firstRow
        -- Reset the cell data parameters, then load from the data model.
        let data := m.cellData row column resetCellData
        -- Fetch the new cell renderer if needed.
        let cache := if data.renderer ≠ name then (data.renderer, rend data.renderer)
                     else (name, r)
        match cache.2 with
        | none =>
            -- Bail if there is no renderer for the cell (the `continue`
            -- also skips the `y += height` at the bottom of the loop).
            drawCellsRows m rend firstRow column xpos colWidth rest (j + 1) y
              cache.1 cache.2
        | some rid =>
            let config : CellConfig :=
              { x := xpos, y := y, width := colWidth, height := height,
                row := row, column := column,
                value := data.value, options := data.options }
            let res := drawCellsRows m rend firstRow column xpos colWidth rest
              (j + 1) (y + height) cache.1 cache.2
            (DrawOp.cellPaint rid config :: res.1, res.2)

/-- The outer (column) loop of `_drawCells`: remaining column sizes, the
running column list-index `i`, the running pixel coordinate `x`, and the
renderer cache threaded across columns. -/
def drawCellsCols (m : DataModel) (rend : RendererMap)
    (firstRow firstColumn : ℤ) (rowSizes : List ℚ) (startY : ℚ) :
    List ℚ → ℕ → ℚ → String → Option ℕ →
    List DrawOp × String × Option ℕ
  | [], _, _, name, r => ([], name, r)
  | width :: rest, i, x, name, r =>
      -- Ignore the column if its width is zero.
      if width = 0 then
        drawCellsCols m rend firstRow firstColumn rowSizes startY rest (i + 1) x
          name r
      else
        let column := (i : ℤ) + firstColumn
        let inner := drawCellsRows m rend firstRow column x width rowSizes 0
          startY name r
        let outer := drawCellsCols m rend firstRow firstColumn rowSizes startY
          rest (i + 1) (x + width) inner.2.1 inner.2.2
        (inner.1 ++ outer.1, outer.2)

/-- Embedding of `GridCanvas._drawCells` (lines 698-802).  The renderer
cache starts as the pair `("", null)`. -/
def drawCells (m : DataModel) (rend : RendererMap) (rgn : Region) :
    List DrawOp :=
  (drawCellsCols m rend rgn.firstRow rgn.firstColumn rgn.rowSizes rgn.y
    rgn.columnSizes 0 rgn.x "" none).1

/-- The region-resolution portion of `GridCanvas._paint` (lines 574-618):
locate the sections covering the near edges (bailing if either is
missing), query one pixel past the far edges with fallback to the last
row/column, and accumulate the section sizes. -/
def resolveRegion (columnHeader rowHeader : GridHeader)
    (scrollX scrollY : ℚ) (rowCount colCount : ℕ)
    (rx ry rw rh : ℚ) : Option Region :=
  -- Compute the upper-left cell index; bail if no cell intersects it.
  let i1 := columnHeader.sectionAt (rx + scrollX)
  let j1 := rowHeader.sectionAt (ry + scrollY)
  if i1 < 0 ∨ j1 < 0 then none
  else
    -- Compute the lower-right cell index, querying one pixel beyond the
    -- dirty rect; fall back to the last cell index if out of range.
    let i2 := columnHeader.sectionAt (rx + rw + scrollX)
    let j2 := rowHeader.sectionAt (ry + rh + scrollY)
    let i2 := if i2 < 0 then (colCount : ℤ) - 1 else i2
    let j2 := if j2 < 0 then (rowCount : ℤ) - 1 else j2
    -- Compute the origin of the cell bounding box.
    let x := columnHeader.sectionPosition i1 - scrollX
    let y := rowHeader.sectionPosition j1 - scrollY
    -- Fetch the section sizes and total region extent.
    let columnSizes := (List.range (i2 - i1 + 1).toNat).map
      (fun k : ℕ => columnHeader.sectionSize (i1 + (k : ℤ)))
    let rowSizes := (List.range (j2 - j1 + 1).toNat).map
      (fun k : ℕ => rowHeader.sectionSize (j1 + (k : ℤ)))
    some { x := x, y := y,
           width := columnSizes.sum, height := rowSizes.sum,
           firstRow := j1, firstColumn := i1,
           rowSizes := rowSizes, columnSizes := columnSizes }

/-- The state read by the paint pipeline. -/
structure PaintState where
  scrollX : ℚ
  scrollY : ℚ
  model : Option DataModel
  rowHeader : Option GridHeader
  columnHeader : Option GridHeader
  cellRenderers : RendererMap

/-- Embedding of `GridCanvas._paint` (lines 552-646): the unconditional
void fill, the missing-collaborator and empty-model bails, region
resolution, and the clipped background / grid-line / cell passes. -/
def paintOps (st : PaintState) (rx ry rw rh : ℚ) : List DrawOp :=
  -- Fill the dirty rect with the void space color.
  let base := DrawOp.fillRect voidColor rx ry rw rh
  -- Bail if there is no data model, row header, or column header.
  match st.model, st.rowHeader, st.columnHeader with
  | some m, some rowHeader, some columnHeader =>
      -- Bail if the data model is empty.
      if m.rowCount = 0 ∨ m.columnCount = 0 then [base]
      else
        match resolveRegion columnHeader rowHeader st.scrollX st.scrollY
            m.rowCount m.columnCount rx ry rw rh with
        | none => [base]
        | some rgn =>
            base :: DrawOp.clipPush rx ry rw rh ::
              ((drawBackground rgn ++ drawGridLines rgn ++
                drawCells m st.cellRenderers rgn) ++ [DrawOp.clipPop])
  | _, _, _ => [base]

/-- The strictly-cumulative partial sums of a list, starting from `x0`
(the value after adding the first element, then the second, ...). -/
def cumSums (x0 : ℚ) : List ℚ → List ℚ
  | [] => []
  | s :: rest => (x0 + s) :: cumSums (x0 + s) rest

/-- The four dirty strips of a blit-scroll, in the source's paint order. -/
def scrollStrips (w h d e : ℚ) : List QRect :=
  [leftStrip w h d e, rightStrip w h d e, topStrip w h d e, bottomStrip w h d e]

/-- A section oracle with a single 50px section starting at offset 0. -/
def oneColHeader : GridHeader :=
  { sectionAt := fun q => if 0 ≤ q ∧ q < 50 then 0 else -1
    sectionPosition := fun _ => 0
    sectionSize := fun _ => 50 }

/-- A 1×1 data model that leaves the scratch record untouched (so every
cell keeps the reset renderer name `"default"`). -/
def oneCellModel : DataModel :=
  { rowCount := 1, columnCount := 1, cellData := fun _ _ rec => rec }

/-- A registry holding only the `"default"` renderer (id 0). -/
def defaultOnlyMap : RendererMap :=
  fun n => if n = "default" then some 0 else none

/-- A fully-wired paint state over a one-cell grid. -/
def oneCellState : PaintState :=
  { scrollX := 0, scrollY := 0, model := some oneCellModel,
    rowHeader := some oneColHeader, columnHeader := some oneColHeader,
    cellRenderers := defaultOnlyMap }

/-- A paint state with no model and no headers attached. -/
def noCollabState : PaintState :=
  { scrollX := 0, scrollY := 0, model := none,
    rowHeader := none, columnHeader := none,
    cellRenderers := defaultOnlyMap }

/-- A 1-column, 2-row model whose first row asks for an unregistered
renderer (`"missing"`) and whose second row keeps the default. -/
def missingRendModel : DataModel :=
  { rowCount := 2, columnCount := 1,
    cellData := fun row _ rec =>
      if row = 0 then { rec with renderer := "missing" } else rec }

/-- The region of one 50px column and two 20px rows at the origin. -/
def rgn1x2 : Region :=
  { x := 0, y := 0, width := 50, height := 40, firstRow := 0,
    firstColumn := 0, rowSizes := [20, 20], columnSizes := [50] }

/-- The region of two 50px columns and three 20px rows at the origin
(the spec's `paint(0,0,100,60)` example). -/
def rgn2x3 : Region :=
  { x := 0, y := 0, width := 100, height := 60, firstRow := 0,
    firstColumn := 0, rowSizes := [20, 20, 20], columnSizes := [50, 50] }

/-- A registry whose only entry is registered under the name `""`. -/
def emptyNameMap : RendererMap := fun n => if n = "" then some 7 else none

/-- A 1-column, 2-row model: row 0 asks for the renderer named `""`,
row 1 keeps the default. -/
def emptyThenDefaultModel : DataModel :=
  { rowCount := 2, columnCount := 1,
    cellData := fun row _ rec =>
      if row = 0 then { rec with renderer := "" } else rec }

/-- A registry holding a renderer under the name `""` (id 7) and the
default renderer (id 0). -/
def emptyAndDefaultMap : RendererMap :=
  fun n => if n = "" then some 7 else if n = "default" then some 0 else none

/-- A 1-column, 2-row model: row 0 asks for renderer `"other"`, row 1 for
renderer `""`. -/
def otherThenEmptyModel : DataModel :=
  { rowCount := 2, columnCount := 1,
    cellData := fun row _ rec =>
      if row = 0 then { rec with renderer := "other" }
      else { rec with renderer := "" } }

/-- The region of one 10px column and two 5px rows at the origin. -/
def rgn2cell : Region :=
  { x := 0, y := 0, width := 10, height := 10, firstRow := 0,
    firstColumn := 0, rowSizes := [5, 5], columnSizes := [10] }

/-- A visible 1×1 resize state whose canvas pixels hold 5 and whose
(stale) buffer pixels hold 7. -/
def resizeState1 : ResizeState :=
  { isVisible := true, nodeOffsetWidth := 1, nodeOffsetHeight := 1,
    buffer := { width := 1, height := 1, data := fun _ _ => 7 },
    canvas := { width := 1, height := 1, data := fun _ _ => 5 } }

/-! ## Lemmas and claim theorems -/

theorem jsub_isZero {a b : JSNum} (h : jisZero (jsub a b) = true) : a = b := by
  cases a <;> cases b <;> simp [jsub, jisZero] at h ⊢
  exact sub_eq_zero.mp h

/-- C3: for every requested scroll, including negative, fractional and
non-finite inputs, `scrollTo` is total and afterwards the stored scroll
position is exactly `(max(0, round(x)), max(0, round(y)))`, regardless of
visibility or surface size. -/
theorem scrollTo_stores_coerced_position (st : ScrollState) (x y : JSNum) :
    (scrollTo st x y).1.scrollX = scrollCoerce x ∧
    (scrollTo st x y).1.scrollY = scrollCoerce y := by
  unfold scrollTo
  dsimp only
  split
  next hz =>
    rw [Bool.and_eq_true] at hz
    exact ⟨(jsub_isZero hz.1).symm, (jsub_isZero hz.2).symm⟩
  next =>
    split
    next => exact ⟨rfl, rfl⟩
    next =>
      split
      next => exact ⟨rfl, rfl⟩
      next =>
        split
        next => exact ⟨rfl, rfl⟩
        next => exact ⟨rfl, rfl⟩

theorem vlineOps_eq (y1 y2 : ℚ) (sizes : List ℚ) :
    ∀ x0, vlineOps y1 y2 x0 sizes =
      (cumSums x0 sizes).map (fun xc => DrawOp.line xc y1 xc y2) := by
  induction sizes with
  | nil => intro x0; rfl
  | cons s rest ih => intro x0; simp [vlineOps, cumSums, ih]

theorem hlineOps_eq (x1 x2 : ℚ) (sizes : List ℚ) :
    ∀ y0, hlineOps x1 x2 y0 sizes =
      (cumSums y0 sizes).map (fun yc => DrawOp.line x1 yc x2 yc) := by
  induction sizes with
  | nil => intro y0; rfl
  | cons s rest ih => intro y0; simp [hlineOps, cumSums, ih]

/-- C5 (counterexample): on the spec's own example region (2 columns of
width 50, 3 rows of height 20), the grid-line pass emits five lines — the
two interior boundary lines at x = 49.5 and y = 19.5, 39.5, but also the
trailing-edge lines at x = 99.5 and y = 59.5 — not the claimed
1 vertical + 2 horizontal = 3 interior lines. -/
theorem drawGridLines_trailing_line_counterexample :
    drawGridLines rgn2x3 =
      [DrawOp.line (99 / 2) 0 (99 / 2) 60,
       DrawOp.line (199 / 2) 0 (199 / 2) 60,
       DrawOp.line 0 (39 / 2) 100 (39 / 2),
       DrawOp.line 0 (79 / 2) 100 (79 / 2),
       DrawOp.line 0 (119 / 2) 100 (119 / 2)] ∧
    (drawGridLines rgn2x3).length ≠ 3 := by
  constructor
  · norm_num [drawGridLines, vlineOps, hlineOps, rgn2x3]
  · norm_num [drawGridLines, vlineOps, hlineOps, rgn2x3]

/-- C5 (amended): the grid-line pass draws exactly one vertical line per
column and one horizontal line per row of the region — at the cumulative
right/bottom edge of each section, offset by half a pixel, spanning the
full region box — i.e. the interior boundaries plus the region's trailing
edge on each axis, not the interior boundaries alone. -/
theorem drawGridLines_one_line_per_section (rgn : Region) :
    drawGridLines rgn =
      (cumSums (rgn.x - 1 / 2) rgn.columnSizes).map
        (fun xc => DrawOp.line xc rgn.y xc (rgn.y + rgn.height)) ++
      (cumSums (rgn.y - 1 / 2) rgn.rowSizes).map
        (fun yc => DrawOp.line rgn.x yc (rgn.x + rgn.width) yc) := by
  unfold drawGridLines
  rw [vlineOps_eq, hlineOps_eq]

/-- C4 (code bug): with one 50px column, rows of height 20 and 20, row 0
requesting the unregistered renderer `"missing"` and row 1 the registered
`"default"`, the cell (1, 0) is painted at `y = 0` instead of
`y = 0 + 20`: the `continue` taken when a renderer is missing also skips
the `y += height` increment, so the skipped cell's height never joins the
running coordinate and every later cell in the column is misplaced. -/
theorem drawCells_missing_renderer_misplaces_rows :
    drawCells missingRendModel defaultOnlyMap rgn1x2 =
      [DrawOp.cellPaint 0
        { x := 0, y := 0, width := 50, height := 20, row := 1, column := 0,
          value := none, options := none }] ∧
    ∀ op ∈ drawCells missingRendModel defaultOnlyMap rgn1x2,
      op ≠ DrawOp.cellPaint 0
        { x := 0, y := 20, width := 50, height := 20, row := 1, column := 0,
          value := none, options := none } := by
  constructor
  · norm_num +decide [drawCells, drawCellsCols, drawCellsRows,
      missingRendModel, defaultOnlyMap, rgn1x2, resetCellData]
  · norm_num +decide [drawCells, drawCellsCols, drawCellsRows,
      missingRendModel, defaultOnlyMap, rgn1x2, resetCellData]

theorem drawCellsRows_paint_mem (m : DataModel) (rend : RendererMap)
    (fr c : ℤ) (xp cw : ℚ) :
    ∀ (sizes : List ℚ) (j : ℕ) (y : ℚ) (name : String) (r : Option ℕ)
      (rid : ℕ) (cfg : CellConfig),
      DrawOp.cellPaint rid cfg ∈
        (drawCellsRows m rend fr c xp cw sizes j y name r).1 →
      cfg.column = c ∧ (j : ℤ) + fr ≤ cfg.row := by
  intro sizes
  induction sizes with
  | nil =>
      intro j y name r rid cfg hmem
      simp [drawCellsRows] at hmem
  | cons s rest ih =>
      intro j y name r rid cfg hmem
      unfold drawCellsRows at hmem
      split at hmem
      next =>
        obtain ⟨h1, h2⟩ := ih (j + 1) y name r rid cfg hmem
        refine ⟨h1, ?_⟩
        push_cast at h2 ⊢
        linarith
      next =>
        dsimp only at hmem
        split at hmem
        next =>
          obtain ⟨h1, h2⟩ := ih (j + 1) y _ _ rid cfg hmem
          refine ⟨h1, ?_⟩
          push_cast at h2 ⊢
          linarith
        next =>
          dsimp only at hmem
          rcases List.mem_cons.mp hmem with heq | htail
          · rw [DrawOp.cellPaint.injEq] at heq
            rw [heq.2]
            exact ⟨rfl, le_refl _⟩
          · obtain ⟨h1, h2⟩ := ih (j + 1) (y + s) _ _ rid cfg htail
            refine ⟨h1, ?_⟩
            push_cast at h2 ⊢
            linarith

theorem drawCellsCols_paint_mem (m : DataModel) (rend : RendererMap)
    (fr fc : ℤ) (rowSizes : List ℚ) (startY : ℚ) :
    ∀ (colSizes : List ℚ) (i : ℕ) (x : ℚ) (name : String) (r : Option ℕ)
      (rid : ℕ) (cfg : CellConfig),
      DrawOp.cellPaint rid cfg ∈
        (drawCellsCols m rend fr fc rowSizes startY colSizes i x name r).1 →
      (i : ℤ) + fc ≤ cfg.column := by
  intro colSizes
  induction colSizes with
  | nil =>
      intro i x name r rid cfg hmem
      simp [drawCellsCols] at hmem
  | cons s rest ih =>
      intro i x name r rid cfg hmem
      unfold drawCellsCols at hmem
      split at hmem
      next =>
        have h := ih (i + 1) x name r rid cfg hmem
        push_cast at h ⊢
        linarith
      next =>
        dsimp only at hmem
        rcases List.mem_append.mp hmem with hin | hout
        · have h := (drawCellsRows_paint_mem m rend fr ((i : ℤ) + fc) x s
            rowSizes 0 startY name r rid cfg hin).1
          exact le_of_eq h.symm
        · have h := ih (i + 1) (x + s) _ _ rid cfg hout
          push_cast at h ⊢
          linarith

theorem drawCellsRows_all_empty (m : DataModel) (rend : RendererMap)
    (fr c : ℤ) (xp cw : ℚ) :
    ∀ (sizes : List ℚ) (j : ℕ) (y : ℚ),
      (∀ k : ℕ, sizes.getD k 0 ≠ 0 →
        (m.cellData ((j : ℤ) + (k : ℤ) + fr) c resetCellData).renderer =
          "") →
      drawCellsRows m rend fr c xp cw sizes j y "" none = ([], "", none) := by
  intro sizes
  induction sizes with
  | nil =>
      intro j y _
      rfl
  | cons s rest ih =>
      intro j y hall
      have hall2 : ∀ k : ℕ, rest.getD k 0 ≠ 0 →
          (m.cellData (((j + 1 : ℕ) : ℤ) + (k : ℤ) + fr) c
            resetCellData).renderer = "" := by
        intro k hk
        have h := hall (k + 1) (by simpa using hk)
        have harg : (j : ℤ) + ((k + 1 : ℕ) : ℤ) + fr =
            ((j + 1 : ℕ) : ℤ) + (k : ℤ) + fr := by
          push_cast
          ring
        rwa [harg] at h
      unfold drawCellsRows
      split
      next => exact ih (j + 1) y hall2
      next hs =>
        have h0 := hall 0 (by simpa using hs)
        have harg : (j : ℤ) + ((0 : ℕ) : ℤ) + fr = (j : ℤ) + fr := by
          push_cast
          ring
        rw [harg] at h0
        simp [h0, ih (j + 1) y hall2]

theorem drawCellsCols_all_empty (m : DataModel) (rend : RendererMap)
    (fr fc : ℤ) (rowSizes : List ℚ) (startY : ℚ) :
    ∀ (colSizes : List ℚ) (i : ℕ) (x : ℚ),
      (∀ k : ℕ, colSizes.getD k 0 ≠ 0 → ∀ jj : ℕ,
        rowSizes.getD jj 0 ≠ 0 →
        (m.cellData ((jj : ℤ) + fr) ((i : ℤ) + (k : ℤ) + fc)
          resetCellData).renderer = "") →
      drawCellsCols m rend fr fc rowSizes startY colSizes i x "" none =
        ([], "", none) := by
  intro colSizes
  induction colSizes with
  | nil =>
      intro i x _
      rfl
  | cons s rest ih =>
      intro i x hall
      have hall2 : ∀ k : ℕ, rest.getD k 0 ≠ 0 → ∀ jj : ℕ,
          rowSizes.getD jj 0 ≠ 0 →
          (m.cellData ((jj : ℤ) + fr) (((i + 1 : ℕ) : ℤ) + (k : ℤ) + fc)
            resetCellData).renderer = "" := by
        intro k hk jj hjj
        have h := hall (k + 1) (by simpa using hk) jj hjj
        have harg : (i : ℤ) + ((k + 1 : ℕ) : ℤ) + fc =
            ((i + 1 : ℕ) : ℤ) + (k : ℤ) + fc := by
          push_cast
          ring
        rwa [harg] at h
      unfold drawCellsCols
      split
      next => exact ih (i + 1) x hall2
      next hs =>
        have hrows : drawCellsRows m rend fr ((i : ℤ) + fc) x s rowSizes 0
            startY "" none = ([], "", none) := by
          apply drawCellsRows_all_empty
          intro k hk
          have h := hall 0 (by simpa using hs) k hk
          have harg : (i : ℤ) + ((0 : ℕ) : ℤ) + fc = (i : ℤ) + fc := by
            push_cast
            ring
          rw [harg] at h
          have harg2 : ((0 : ℕ) : ℤ) + (k : ℤ) + fr = (k : ℤ) + fr := by
            push_cast
            ring
          rw [harg2]
          exact h
        simp [hrows, ih (i + 1) (x + s) hall2]

theorem drawCellsRows_target_not_painted (m : DataModel)
    (rend : RendererMap) (fr c : ℤ) (xp cw : ℚ) (jT : ℕ)
    (hT : (m.cellData ((jT : ℤ) + fr) c resetCellData).renderer = "") :
    ∀ (sizes : List ℚ) (j : ℕ) (y : ℚ),
      j ≤ jT →
      (∀ k : ℕ, sizes.getD k 0 ≠ 0 → j + k < jT →
        (m.cellData ((j : ℤ) + (k : ℤ) + fr) c resetCellData).renderer =
          "") →
      ∀ (rid : ℕ) (cfg : CellConfig),
        DrawOp.cellPaint rid cfg ∈
          (drawCellsRows m rend fr c xp cw sizes j y "" none).1 →
        cfg.row ≠ (jT : ℤ) + fr := by
  intro sizes
  induction sizes with
  | nil =>
      intro j y _ _ rid cfg hmem
      simp [drawCellsRows] at hmem
  | cons s rest ih =>
      intro j y hj hbef rid cfg hmem
      have hbef2 : ∀ k : ℕ, rest.getD k 0 ≠ 0 → (j + 1) + k < jT →
          (m.cellData (((j + 1 : ℕ) : ℤ) + (k : ℤ) + fr) c
            resetCellData).renderer = "" := by
        intro k hk hlt
        have h := hbef (k + 1) (by simpa using hk) (by omega)
        have harg : (j : ℤ) + ((k + 1 : ℕ) : ℤ) + fr =
            ((j + 1 : ℕ) : ℤ) + (k : ℤ) + fr := by
          push_cast
          ring
        rwa [harg] at h
      unfold drawCellsRows at hmem
      split at hmem
      next hs =>
        by_cases hj2 : j + 1 ≤ jT
        · exact ih (j + 1) y hj2 hbef2 rid cfg hmem
        · have hb := (drawCellsRows_paint_mem m rend fr c xp cw rest (j + 1)
            y "" none rid cfg hmem).2
          intro hrow
          rw [hrow] at hb
          push_cast at hb
          omega
      next hs =>
        have hdata : (m.cellData ((j : ℤ) + fr) c resetCellData).renderer =
            "" := by
          rcases lt_or_eq_of_le hj with hLt | hEq
          · have h := hbef 0 (by simpa using hs) (by omega)
            have harg : (j : ℤ) + ((0 : ℕ) : ℤ) + fr = (j : ℤ) + fr := by
              push_cast
              ring
            rwa [harg] at h
          · rw [hEq]
            exact hT
        simp only [hdata, ne_eq, not_true_eq_false, if_false] at hmem
        by_cases hj2 : j + 1 ≤ jT
        · exact ih (j + 1) y hj2 hbef2 rid cfg hmem
        · have hb := (drawCellsRows_paint_mem m rend fr c xp cw rest (j + 1)
            y "" none rid cfg hmem).2
          intro hrow
          rw [hrow] at hb
          push_cast at hb
          omega

theorem drawCellsCols_target_not_painted (m : DataModel)
    (rend : RendererMap) (fr fc : ℤ) (rowSizes : List ℚ) (startY : ℚ)
    (iT jT : ℕ)
    (hT : (m.cellData ((jT : ℤ) + fr) ((iT : ℤ) + fc)
      resetCellData).renderer = "") :
    ∀ (colSizes : List ℚ) (i : ℕ) (x : ℚ),
      i ≤ iT →
      (∀ k jj : ℕ, colSizes.getD k 0 ≠ 0 → rowSizes.getD jj 0 ≠ 0 →
        (i + k < iT ∨ (i + k = iT ∧ jj < jT)) →
        (m.cellData ((jj : ℤ) + fr) ((i : ℤ) + (k : ℤ) + fc)
          resetCellData).renderer = "") →
      ∀ (rid : ℕ) (cfg : CellConfig),
        DrawOp.cellPaint rid cfg ∈
          (drawCellsCols m rend fr fc rowSizes startY colSizes i x
            "" none).1 →
        ¬(cfg.row = (jT : ℤ) + fr ∧ cfg.column = (iT : ℤ) + fc) := by
  intro colSizes
  induction colSizes with
  | nil =>
      intro i x _ _ rid cfg hmem
      simp [drawCellsCols] at hmem
  | cons s rest ih =>
      intro i x hi hbef rid cfg hmem
      have hbef2 : ∀ k jj : ℕ, rest.getD k 0 ≠ 0 →
          rowSizes.getD jj 0 ≠ 0 →
          ((i + 1) + k < iT ∨ ((i + 1) + k = iT ∧ jj < jT)) →
          (m.cellData ((jj : ℤ) + fr) (((i + 1 : ℕ) : ℤ) + (k : ℤ) + fc)
            resetCellData).renderer = "" := by
        intro k jj hk hjj hlex
        have h := hbef (k + 1) jj (by simpa using hk) hjj (by omega)
        have harg : (i : ℤ) + ((k + 1 : ℕ) : ℤ) + fc =
            ((i + 1 : ℕ) : ℤ) + (k : ℤ) + fc := by
          push_cast
          ring
        rwa [harg] at h
      unfold drawCellsCols at hmem
      split at hmem
      next hs =>
        by_cases hi2 : i + 1 ≤ iT
        · exact ih (i + 1) x hi2 hbef2 rid cfg hmem
        · have hb := drawCellsCols_paint_mem m rend fr fc rowSizes startY
            rest (i + 1) x "" none rid cfg hmem
          rintro ⟨hrow, hcol⟩
          rw [hcol] at hb
          push_cast at hb
          omega
      next hs =>
        dsimp only at hmem
        rcases lt_or_eq_of_le hi with hLt | hEq
        · -- a column strictly before the target: all its cells resolve ""
          have hrows : drawCellsRows m rend fr ((i : ℤ) + fc) x s rowSizes 0
              startY "" none = ([], "", none) := by
            apply drawCellsRows_all_empty
            intro k hk
            have h := hbef 0 k (by simpa using hs) hk (Or.inl (by omega))
            have harg : (i : ℤ) + ((0 : ℕ) : ℤ) + fc = (i : ℤ) + fc := by
              push_cast
              ring
            rw [harg] at h
            have harg2 : ((0 : ℕ) : ℤ) + (k : ℤ) + fr = (k : ℤ) + fr := by
              push_cast
              ring
            rw [harg2]
            exact h
          rw [hrows] at hmem
          dsimp only at hmem
          exact ih (i + 1) (x + s) (by omega) hbef2 rid cfg hmem
        · -- the target column itself
          rcases List.mem_append.mp hmem with hin | hout
          · have hbefT : ∀ k : ℕ, rowSizes.getD k 0 ≠ 0 → 0 + k < jT →
                (m.cellData (((0 : ℕ) : ℤ) + (k : ℤ) + fr) ((i : ℤ) + fc)
                  resetCellData).renderer = "" := by
              intro k hk hlt
              have h := hbef 0 k (by simpa using hs) hk
                (Or.inr ⟨by omega, by omega⟩)
              have harg : (i : ℤ) + ((0 : ℕ) : ℤ) + fc = (i : ℤ) + fc := by
                push_cast
                ring
              rw [harg] at h
              have harg2 : ((0 : ℕ) : ℤ) + (k : ℤ) + fr = (k : ℤ) + fr := by
                push_cast
                ring
              rw [harg2]
              exact h
            have hTi : (m.cellData ((jT : ℤ) + fr) ((i : ℤ) + fc)
                resetCellData).renderer = "" := by
              rw [hEq]
              exact hT
            have hrowv := drawCellsRows_target_not_painted m rend fr
              ((i : ℤ) + fc) x s jT hTi rowSizes 0 startY (by omega) hbefT
              rid cfg hin
            rintro ⟨hrow, hcol⟩
            exact hrowv hrow
          · have hb := drawCellsCols_paint_mem m rend fr fc rowSizes startY
              rest (i + 1) (x + s) _ _ rid cfg hout
            rintro ⟨hrow, hcol⟩
            rw [hcol] at hb
            push_cast at hb
            omega

/-- C10: the renderer-lookup cache starts as `("", null)`.  Take any cell
of the region (list position `(iT, jT)`, non-zero column width and row
height) whose model-resolved renderer name is `""`, such that every
non-skipped cell processed before it in the pass (columns left-to-right,
rows top-to-bottom within a column) also resolves `""`.  Then that cell
is never handed to a renderer — even when a renderer is registered under
the name `""` — because the lookup is skipped while the cache still
holds `("", null)`.  Taking `(iT, jT)` as the first non-skipped position
makes the hypothesis on earlier cells vacuous and gives the claim's
first assertion, with the later cells of the region arbitrary; in
general this is the contrapositive of the second assertion: a `""`-cell
is painted only if a differently-named cell was processed earlier in the
same pass.  The final conjunct exhibits the painted case: a region whose
first cell is named `"other"` and whose second is named `""` does paint
the second cell. -/
theorem drawCells_empty_renderer_name_cache
    (m : DataModel) (rend : RendererMap) (rgn : Region) (rid : ℕ)
    (iT jT : ℕ)
    (hwT : rgn.columnSizes.getD iT 0 ≠ 0)
    (hhT : rgn.rowSizes.getD jT 0 ≠ 0)
    (hreg : rend "" = some rid)
    (hbefore : ∀ i j : ℕ, rgn.columnSizes.getD i 0 ≠ 0 →
      rgn.rowSizes.getD j 0 ≠ 0 → (i < iT ∨ (i = iT ∧ j < jT)) →
      (m.cellData ((j : ℤ) + rgn.firstRow) ((i : ℤ) + rgn.firstColumn)
        resetCellData).renderer = "")
    (hT : (m.cellData ((jT : ℤ) + rgn.firstRow)
        ((iT : ℤ) + rgn.firstColumn) resetCellData).renderer = "") :
    (∀ (rid2 : ℕ) (cfg : CellConfig),
      DrawOp.cellPaint rid2 cfg ∈ drawCells m rend rgn →
      ¬(cfg.row = (jT : ℤ) + rgn.firstRow ∧
        cfg.column = (iT : ℤ) + rgn.firstColumn)) ∧
    drawCells otherThenEmptyModel emptyNameMap rgn2cell =
      [DrawOp.cellPaint 7
        { x := 0, y := 0, width := 10, height := 5, row := 1, column := 0,
          value := none, options := none }] := by
  refine ⟨?_, ?_⟩
  · intro rid2 cfg hmem
    unfold drawCells at hmem
    have hbef0 : ∀ k jj : ℕ, rgn.columnSizes.getD k 0 ≠ 0 →
        rgn.rowSizes.getD jj 0 ≠ 0 →
        (0 + k < iT ∨ (0 + k = iT ∧ jj < jT)) →
        (m.cellData ((jj : ℤ) + rgn.firstRow)
          (((0 : ℕ) : ℤ) + (k : ℤ) + rgn.firstColumn)
          resetCellData).renderer = "" := by
      intro k jj hk hjj hlex
      have h := hbefore k jj hk hjj (by omega)
      have harg : (k : ℤ) + rgn.firstColumn =
          ((0 : ℕ) : ℤ) + (k : ℤ) + rgn.firstColumn := by
        push_cast
        ring
      rwa [harg] at h
    exact drawCellsCols_target_not_painted m rend rgn.firstRow
      rgn.firstColumn rgn.rowSizes rgn.y iT jT hT rgn.columnSizes 0 rgn.x
      (by omega) hbef0 rid2 cfg hmem
  · norm_num +decide [drawCells, drawCellsCols, drawCellsRows,
      otherThenEmptyModel, emptyNameMap, rgn2cell, resetCellData]

/-- C10 witness: a mixed-name region — one 50px column, rows [20, 20];
cell (0, 0) resolves `""`, which is registered (id 7), while cell (1, 0)
keeps the registered default — and the target is the first cell, so the
earlier-cells hypothesis is vacuous: the first cell is not painted, and
the pass's actual trace (last conjunct) paints only the default-named
cell. -/
theorem drawCells_empty_renderer_name_cache_instance :
    (rgn1x2.columnSizes.getD 0 0 ≠ 0 ∧
     rgn1x2.rowSizes.getD 0 0 ≠ 0 ∧
     emptyAndDefaultMap "" = some 7 ∧
     (∀ i j : ℕ, rgn1x2.columnSizes.getD i 0 ≠ 0 →
       rgn1x2.rowSizes.getD j 0 ≠ 0 → (i < 0 ∨ (i = 0 ∧ j < 0)) →
       (emptyThenDefaultModel.cellData ((j : ℤ) + rgn1x2.firstRow)
         ((i : ℤ) + rgn1x2.firstColumn) resetCellData).renderer = "") ∧
     (emptyThenDefaultModel.cellData (((0 : ℕ) : ℤ) + rgn1x2.firstRow)
       (((0 : ℕ) : ℤ) + rgn1x2.firstColumn) resetCellData).renderer =
       "") ∧
    ((∀ (rid2 : ℕ) (cfg : CellConfig),
       DrawOp.cellPaint rid2 cfg ∈
         drawCells emptyThenDefaultModel emptyAndDefaultMap rgn1x2 →
       ¬(cfg.row = ((0 : ℕ) : ℤ) + rgn1x2.firstRow ∧
         cfg.column = ((0 : ℕ) : ℤ) + rgn1x2.firstColumn)) ∧
     drawCells otherThenEmptyModel emptyNameMap rgn2cell =
       [DrawOp.cellPaint 7
         { x := 0, y := 0, width := 10, height := 5, row := 1, column := 0,
           value := none, options := none }]) ∧
    drawCells emptyThenDefaultModel emptyAndDefaultMap rgn1x2 =
      [DrawOp.cellPaint 0
        { x := 0, y := 0, width := 50, height := 20, row := 1, column := 0,
          value := none, options := none }] :=
  ⟨⟨by norm_num [rgn1x2], by norm_num [rgn1x2], rfl,
    fun i j _ _ hlex => absurd hlex (by omega),
    by norm_num [emptyThenDefaultModel, resetCellData, rgn1x2]⟩,
   drawCells_empty_renderer_name_cache emptyThenDefaultModel
     emptyAndDefaultMap rgn1x2 7 0 0 (by norm_num [rgn1x2])
     (by norm_num [rgn1x2]) rfl
     (fun i j _ _ hlex => absurd hlex (by omega))
     (by norm_num [emptyThenDefaultModel, resetCellData, rgn1x2]),
   by norm_num +decide [drawCells, drawCellsCols, drawCellsRows,
     emptyThenDefaultModel, emptyAndDefaultMap, rgn1x2, resetCellData]⟩

/-- C7: every `_paint` call first fills the dirty rect with the void
color; and when the model, row oracle or column oracle is absent, or the
model reports zero rows or columns, the trace is exactly that single fill
— no grid lines, no cell dispatch, and (being a total function) no error
escapes. -/
theorem paintOps_base_fill_and_bail (st : PaintState) (rx ry rw rh : ℚ) :
    (paintOps st rx ry rw rh).head? =
      some (DrawOp.fillRect voidColor rx ry rw rh) ∧
    ((st.model = none ∨ st.rowHeader = none ∨ st.columnHeader = none ∨
        ∀ m, st.model = some m → m.rowCount = 0 ∨ m.columnCount = 0) →
      paintOps st rx ry rw rh = [DrawOp.fillRect voidColor rx ry rw rh]) := by
  obtain ⟨sx, sy, model, rowH, colH, rend⟩ := st
  constructor
  · cases model <;> cases rowH <;> cases colH <;>
      simp only [paintOps] <;> try rfl
    split
    next => rfl
    next => split <;> rfl
  · intro hbail
    cases model <;> cases rowH <;> cases colH <;>
      (simp only [paintOps]; try rfl)
    next m rh ch =>
      simp only [reduceCtorEq, false_or] at hbail
      have hz := hbail m rfl
      rw [if_pos hz]

/-- C7 witness: a paint state with no collaborators attached. -/
theorem paintOps_base_fill_and_bail_instance :
    ((paintOps noCollabState 1 2 3 4).head? =
       some (DrawOp.fillRect voidColor 1 2 3 4) ∧
     (noCollabState.model = none ∨ noCollabState.rowHeader = none ∨
      noCollabState.columnHeader = none ∨
      ∀ m, noCollabState.model = some m →
        m.rowCount = 0 ∨ m.columnCount = 0)) ∧
    paintOps noCollabState 1 2 3 4 = [DrawOp.fillRect voidColor 1 2 3 4] :=
  ⟨⟨(paintOps_base_fill_and_bail noCollabState 1 2 3 4).1, Or.inl rfl⟩,
   (paintOps_base_fill_and_bail noCollabState 1 2 3 4).2 (Or.inl rfl)⟩

/-- C6 (counterexample): over a grid with a single 50px row and column, a
dirty rect positioned entirely beyond the last section (at 60, 60) makes
the *near*-edge query return "no section", so `_paint` bails after the
base fill — the resolution is empty and no painting proceeds; the
last-index fallback only applies to the far-edge query. -/
theorem paint_rect_fully_beyond_counterexample :
    resolveRegion oneColHeader oneColHeader 0 0 1 1 60 60 10 10 = none ∧
    paintOps oneCellState 60 60 10 10 =
      [DrawOp.fillRect voidColor 60 60 10 10] := by
  constructor
  · norm_num [resolveRegion, oneColHeader]
  · norm_num [paintOps, resolveRegion, oneCellState, oneColHeader,
      oneCellModel]

/-- C6 (amended): the last-index fallback applies to the far-edge query
only.  When the dirty rect's near (left/top) edges lie inside known
sections but the queries one pixel past its far edges return "no
section", resolution falls back to the last column/row index of the
model: the region runs from the near sections to indices
`columnCount - 1` / `rowCount - 1`, is non-empty, and the paint proceeds
past the bails (the clip is pushed).  (A rect whose *near* edge already
lies beyond the last section resolves to empty instead — see the
counterexample.) -/
theorem resolveRegion_far_edge_fallback
    (st : PaintState) (m : DataModel) (colHdr rowHdr : GridHeader)
    (rx ry rw rh : ℚ)
    (hm : st.model = some m) (hrow : st.rowHeader = some rowHdr)
    (hcol : st.columnHeader = some colHdr)
    (hi1 : 0 ≤ colHdr.sectionAt (rx + st.scrollX))
    (hj1 : 0 ≤ rowHdr.sectionAt (ry + st.scrollY))
    (hi1lt : colHdr.sectionAt (rx + st.scrollX) < m.columnCount)
    (hj1lt : rowHdr.sectionAt (ry + st.scrollY) < m.rowCount)
    (hi2 : colHdr.sectionAt (rx + rw + st.scrollX) < 0)
    (hj2 : rowHdr.sectionAt (ry + rh + st.scrollY) < 0) :
    ∃ rgn, resolveRegion colHdr rowHdr st.scrollX st.scrollY m.rowCount
        m.columnCount rx ry rw rh = some rgn ∧
      rgn.firstColumn = colHdr.sectionAt (rx + st.scrollX) ∧
      rgn.firstRow = rowHdr.sectionAt (ry + st.scrollY) ∧
      rgn.columnSizes.length =
        ((m.columnCount : ℤ) - colHdr.sectionAt (rx + st.scrollX)).toNat ∧
      rgn.rowSizes.length =
        ((m.rowCount : ℤ) - rowHdr.sectionAt (ry + st.scrollY)).toNat ∧
      rgn.columnSizes ≠ [] ∧ rgn.rowSizes ≠ [] ∧
      DrawOp.clipPush rx ry rw rh ∈ paintOps st rx ry rw rh := by
  have h1 : ¬(colHdr.sectionAt (rx + st.scrollX) < 0 ∨
      rowHdr.sectionAt (ry + st.scrollY) < 0) := by
    push_neg
    exact ⟨hi1, hj1⟩
  have hres : resolveRegion colHdr rowHdr st.scrollX st.scrollY m.rowCount
      m.columnCount rx ry rw rh = some
        { x := colHdr.sectionPosition (colHdr.sectionAt (rx + st.scrollX)) -
            st.scrollX
          y := rowHdr.sectionPosition (rowHdr.sectionAt (ry + st.scrollY)) -
            st.scrollY
          width := ((List.range
              (((m.columnCount : ℤ) - 1 -
                colHdr.sectionAt (rx + st.scrollX) + 1)).toNat).map
            (fun k : ℕ => colHdr.sectionSize
              (colHdr.sectionAt (rx + st.scrollX) + (k : ℤ)))).sum
          height := ((List.range
              (((m.rowCount : ℤ) - 1 -
                rowHdr.sectionAt (ry + st.scrollY) + 1)).toNat).map
            (fun k : ℕ => rowHdr.sectionSize
              (rowHdr.sectionAt (ry + st.scrollY) + (k : ℤ)))).sum
          firstRow := rowHdr.sectionAt (ry + st.scrollY)
          firstColumn := colHdr.sectionAt (rx + st.scrollX)
          rowSizes := (List.range
              (((m.rowCount : ℤ) - 1 -
                rowHdr.sectionAt (ry + st.scrollY) + 1)).toNat).map
            (fun k : ℕ => rowHdr.sectionSize
              (rowHdr.sectionAt (ry + st.scrollY) + (k : ℤ)))
          columnSizes := (List.range
              (((m.columnCount : ℤ) - 1 -
                colHdr.sectionAt (rx + st.scrollX) + 1)).toNat).map
            (fun k : ℕ => colHdr.sectionSize
              (colHdr.sectionAt (rx + st.scrollX) + (k : ℤ))) } := by
    simp only [resolveRegion]
    rw [if_neg h1, if_pos hi2, if_pos hj2]
  have hC : 0 < ((m.columnCount : ℤ) -
      colHdr.sectionAt (rx + st.scrollX)).toNat := by omega
  have hR : 0 < ((m.rowCount : ℤ) -
      rowHdr.sectionAt (ry + st.scrollY)).toNat := by omega
  refine ⟨_, hres, rfl, rfl, ?_, ?_, ?_, ?_, ?_⟩
  · rw [List.length_map, List.length_range]
    omega
  · rw [List.length_map, List.length_range]
    omega
  · simp only [ne_eq, List.map_eq_nil_iff, List.range_eq_nil]
    omega
  · simp only [ne_eq, List.map_eq_nil_iff, List.range_eq_nil]
    omega
  · have hCz : ¬(m.rowCount = 0 ∨ m.columnCount = 0) := by
      push_neg
      omega
    simp only [paintOps, hm, hrow, hcol]
    rw [if_neg hCz, hres]
    simp

/-- C6 witness: over the one-cell grid, the rect `(20, 10, 40, 45)` starts
inside the single 50px section but ends past it on both axes, so both
far-edge queries fall back to the last index and the paint proceeds. -/
theorem resolveRegion_far_edge_fallback_instance :
    (oneCellState.model = some oneCellModel ∧
     oneCellState.rowHeader = some oneColHeader ∧
     oneCellState.columnHeader = some oneColHeader ∧
     0 ≤ oneColHeader.sectionAt (20 + oneCellState.scrollX) ∧
     0 ≤ oneColHeader.sectionAt (10 + oneCellState.scrollY) ∧
     oneColHeader.sectionAt (20 + oneCellState.scrollX) <
       oneCellModel.columnCount ∧
     oneColHeader.sectionAt (10 + oneCellState.scrollY) <
       oneCellModel.rowCount ∧
     oneColHeader.sectionAt (20 + 40 + oneCellState.scrollX) < 0 ∧
     oneColHeader.sectionAt (10 + 45 + oneCellState.scrollY) < 0) ∧
    (∃ rgn, resolveRegion oneColHeader oneColHeader oneCellState.scrollX
        oneCellState.scrollY oneCellModel.rowCount oneCellModel.columnCount
        20 10 40 45 = some rgn ∧
      rgn.firstColumn = oneColHeader.sectionAt (20 + oneCellState.scrollX) ∧
      rgn.firstRow = oneColHeader.sectionAt (10 + oneCellState.scrollY) ∧
      rgn.columnSizes.length =
        ((oneCellModel.columnCount : ℤ) -
          oneColHeader.sectionAt (20 + oneCellState.scrollX)).toNat ∧
      rgn.rowSizes.length =
        ((oneCellModel.rowCount : ℤ) -
          oneColHeader.sectionAt (10 + oneCellState.scrollY)).toNat ∧
      rgn.columnSizes ≠ [] ∧ rgn.rowSizes ≠ [] ∧
      DrawOp.clipPush 20 10 40 45 ∈ paintOps oneCellState 20 10 40 45) :=
  ⟨⟨rfl, rfl, rfl,
    by norm_num [oneColHeader, oneCellState],
    by norm_num [oneColHeader, oneCellState],
    by norm_num [oneColHeader, oneCellState, oneCellModel],
    by norm_num [oneColHeader, oneCellState, oneCellModel],
    by norm_num [oneColHeader, oneCellState],
    by norm_num [oneColHeader, oneCellState]⟩,
   resolveRegion_far_edge_fallback oneCellState oneCellModel oneColHeader
     oneColHeader 20 10 40 45 rfl rfl rfl
     (by norm_num [oneColHeader, oneCellState])
     (by norm_num [oneColHeader, oneCellState])
     (by norm_num [oneColHeader, oneCellState, oneCellModel])
     (by norm_num [oneColHeader, oneCellState, oneCellModel])
     (by norm_num [oneColHeader, oneCellState])
     (by norm_num [oneColHeader, oneCellState])⟩

/-- C2: when the widget is visible, the canvas has non-zero area, and the
post-coercion delta against the stored scroll position reaches the
surface size on either axis, `scrollTo` issues exactly one full-surface
repaint `(0, 0, width, height)` and no blit. -/
theorem scrollTo_full_repaint
    (st : ScrollState) (x y : JSNum) (sx sy cx cy : ℚ)
    (hsx : st.scrollX = JSNum.fin sx) (hsy : st.scrollY = JSNum.fin sy)
    (hx : scrollCoerce x = JSNum.fin cx) (hy : scrollCoerce y = JSNum.fin cy)
    (hvis : st.isVisible = true)
    (hw : 0 < st.canvasWidth) (hh : 0 < st.canvasHeight)
    (hbig : (st.canvasWidth : ℚ) ≤ |cx - sx| ∨
            (st.canvasHeight : ℚ) ≤ |cy - sy|) :
    (scrollTo st x y).2 =
      [Effect.paint 0 0 (st.canvasWidth : ℚ) (st.canvasHeight : ℚ)] := by
  have hwQ : (0 : ℚ) < st.canvasWidth := by exact_mod_cast hw
  have hhQ : (0 : ℚ) < st.canvasHeight := by exact_mod_cast hh
  have hne : ¬(cx - sx = 0 ∧ cy - sy = 0) := by
    rintro ⟨h1, h2⟩
    rcases hbig with h | h
    · rw [h1] at h
      simp at h
      linarith
    · rw [h2] at h
      simp at h
      linarith
  simp only [scrollTo, hx, hy, hsx, hsy, jsub, jisZero, jabs, jle]
  split
  next h =>
    rw [Bool.and_eq_true, decide_eq_true_eq, decide_eq_true_eq] at h
    exact absurd h hne
  next =>
    split
    next h =>
      rw [hvis] at h
      simp at h
    next =>
      split
      next h =>
        rw [Bool.or_eq_true, decide_eq_true_eq, decide_eq_true_eq] at h
        omega
      next =>
        split
        next => rfl
        next h =>
          rw [Bool.or_eq_true, decide_eq_true_eq, decide_eq_true_eq] at h
          push_neg at h
          rcases hbig with hb | hb
          · exact absurd hb (not_le.mpr h.1)
          · exact absurd hb (not_le.mpr h.2)

/-- C2 witness: a 4×3 visible canvas at scroll (0,0) scrolled to x = 10
(delta 10 ≥ width 4). -/
theorem scrollTo_full_repaint_instance :
    ((⟨JSNum.fin 0, JSNum.fin 0, 4, 3, true⟩ : ScrollState).scrollX =
       JSNum.fin 0 ∧
     scrollCoerce (JSNum.fin 10) = JSNum.fin 10 ∧
     scrollCoerce (JSNum.fin 0) = JSNum.fin 0 ∧
     (((4 : ℕ) : ℚ) ≤ |(10 : ℚ) - 0| ∨ ((3 : ℕ) : ℚ) ≤ |(0 : ℚ) - 0|)) ∧
    (scrollTo ⟨JSNum.fin 0, JSNum.fin 0, 4, 3, true⟩ (JSNum.fin 10)
        (JSNum.fin 0)).2 =
      [Effect.paint 0 0 ((4 : ℕ) : ℚ) ((3 : ℕ) : ℚ)] :=
  ⟨⟨rfl, by norm_num [scrollCoerce, jround, jmax0],
    by norm_num [scrollCoerce, jround, jmax0],
    by norm_num⟩,
   scrollTo_full_repaint ⟨JSNum.fin 0, JSNum.fin 0, 4, 3, true⟩
     (JSNum.fin 10) (JSNum.fin 0) 0 0 10 0 rfl rfl
     (by norm_num [scrollCoerce, jround, jmax0])
     (by norm_num [scrollCoerce, jround, jmax0])
     rfl (by norm_num) (by norm_num) (by norm_num)⟩

/-- C8: a resize between non-zero sizes preserves the old visible pixels
at their top-left-anchored position (everything inside the overlap of the
old and new extents survives the buffer round-trip), and a pure
horizontal grow from `(W, H)` to `(W + k, H)` preserves the whole old
`W × H` area while repainting exactly the new `k × H` right strip. -/
theorem onResize_preserves_content
    (st : ResizeState) (msgW msgH : ℚ) (W H W2 H2 : ℤ)
    (hvis : st.isVisible = true)
    (hcw : st.canvas.width = W) (hch : st.canvas.height = H)
    (hW2 : roundQ (resolveDim msgW st.nodeOffsetWidth) = W2)
    (hH2 : roundQ (resolveDim msgH st.nodeOffsetHeight) = H2)
    (hW : 0 < W) (hH : 0 < H) (hW2p : 0 < W2) (hH2p : 0 < H2) :
    (∀ px py : ℤ, 0 ≤ px → px < min W W2 → 0 ≤ py → py < min H H2 →
      (onResize st msgW msgH).1.canvas.data px py = st.canvas.data px py) ∧
    (onResize st msgW msgH).1.canvas.width = W2 ∧
    (onResize st msgW msgH).1.canvas.height = H2 ∧
    (∀ k : ℤ, 0 < k → W2 = W + k → H2 = H →
      (∀ px py : ℤ, 0 ≤ px → px < W → 0 ≤ py → py < H →
        (onResize st msgW msgH).1.canvas.data px py = st.canvas.data px py) ∧
      (onResize st msgW msgH).2 =
        [Effect.paint (W : ℚ) 0 (k : ℚ) (H : ℚ)]) := by
  have hblit : 0 < W ∧ 0 < H ∧ 0 < W2 ∧ 0 < H2 := ⟨hW, hH, hW2p, hH2p⟩
  have hstep : onResize st msgW msgH =
      ({ st with
          buffer := (st.buffer.setSize W2 H2).drawImage st.canvas,
          canvas := ((st.canvas.setSize W2 H2).drawImage
            ((st.buffer.setSize W2 H2).drawImage st.canvas)) },
        (if 0 < max 0 (W2 - W) then
          [Effect.paint (W : ℚ) 0 ((max 0 (W2 - W) : ℤ) : ℚ) (H2 : ℚ)]
         else []) ++
        (if 0 < max 0 (H2 - H) then
          [Effect.paint 0 (H : ℚ) ((W2 : ℚ) - ((max 0 (W2 - W) : ℤ) : ℚ))
            ((max 0 (H2 - H) : ℤ) : ℚ)]
         else [])) := by
    simp only [onResize, hvis, Bool.not_true, Bool.false_eq_true, if_false,
      hcw, hch, hW2, hH2]
    rw [if_pos hblit, if_pos hblit]
  have hpix : ∀ px py : ℤ, 0 ≤ px → px < min W W2 → 0 ≤ py →
      py < min H H2 →
      (onResize st msgW msgH).1.canvas.data px py = st.canvas.data px py := by
    intro px py h1 h2 h3 h4
    rw [hstep]
    simp only [Canvas.drawImage, Canvas.setSize, hcw, hch]
    split_ifs with ho hi
    · rfl
    · omega
    · omega
  refine ⟨hpix, by rw [hstep]; rfl, by rw [hstep]; rfl, ?_⟩
  intro k hk hWk hHk
  constructor
  · intro px py h1 h2 h3 h4
    exact hpix px py h1 (by omega) h3 (by omega)
  · rw [hstep]
    dsimp only
    have hr : max 0 (W2 - W) = k := by omega
    have hb : max 0 (H2 - H) = 0 := by omega
    rw [hr, hb, hHk, if_pos hk]
    simp

/-- C8 witness: growing the populated 1×1 surface to 2×1 preserves the
old pixel and repaints exactly the new 1×1 right strip. -/
theorem onResize_preserves_content_instance :
    (resizeState1.isVisible = true ∧
     resizeState1.canvas.width = 1 ∧ resizeState1.canvas.height = 1 ∧
     roundQ (resolveDim 2 resizeState1.nodeOffsetWidth) = 2 ∧
     roundQ (resolveDim 1 resizeState1.nodeOffsetHeight) = 1) ∧
    ((∀ px py : ℤ, 0 ≤ px → px < min 1 2 → 0 ≤ py → py < min 1 1 →
        (onResize resizeState1 2 1).1.canvas.data px py =
          resizeState1.canvas.data px py) ∧
     (onResize resizeState1 2 1).1.canvas.width = 2 ∧
     (onResize resizeState1 2 1).1.canvas.height = 1 ∧
     (∀ k : ℤ, 0 < k → (2 : ℤ) = 1 + k → (1 : ℤ) = 1 →
       (∀ px py : ℤ, 0 ≤ px → px < 1 → 0 ≤ py → py < 1 →
         (onResize resizeState1 2 1).1.canvas.data px py =
           resizeState1.canvas.data px py) ∧
       (onResize resizeState1 2 1).2 =
         [Effect.paint ((1 : ℤ) : ℚ) 0 (k : ℚ) ((1 : ℤ) : ℚ)])) :=
  ⟨⟨rfl, rfl, rfl,
    by norm_num [roundQ, resolveDim, resizeState1],
    by norm_num [roundQ, resolveDim, resizeState1]⟩,
   onResize_preserves_content resizeState1 2 1 1 1 2 1 rfl rfl rfl
     (by norm_num [roundQ, resolveDim, resizeState1])
     (by norm_num [roundQ, resolveDim, resizeState1])
     (by norm_num) (by norm_num) (by norm_num) (by norm_num)⟩

/-- C9 (counterexample): a resize request equal to the current 1×1
dimensions is *not* a complete no-op: the blit round-trip still runs, so
the off-screen buffer — holding 7 before the call — is overwritten with a
copy of the canvas (5).  The claim that "the surface, buffer, and all
pixel content remain unchanged" fails on the buffer. -/
theorem onResize_same_size_buffer_changes :
    roundQ (resolveDim 1 resizeState1.nodeOffsetWidth) =
      resizeState1.canvas.width ∧
    roundQ (resolveDim 1 resizeState1.nodeOffsetHeight) =
      resizeState1.canvas.height ∧
    (onResize resizeState1 1 1).1.buffer.data 0 0 = 5 ∧
    resizeState1.buffer.data 0 0 = 7 ∧
    (onResize resizeState1 1 1).1.buffer.data 0 0 ≠
      resizeState1.buffer.data 0 0 := by
  refine ⟨?_, ?_, ?_, rfl, ?_⟩ <;>
    norm_num [onResize, resolveDim, roundQ, resizeState1, Canvas.setSize,
      Canvas.drawImage]

/-- C9 (amended): a resize request whose (resolved, rounded) dimensions
equal the current surface dimensions issues no repaint and leaves the
visible surface — its dimensions and its in-bounds pixel content —
unchanged; the off-screen buffer, however, is still resized and rewritten
with a copy of the surface (see the counterexample), so the operation is
a no-op only for the on-screen state. -/
theorem onResize_same_size_no_repaint
    (st : ResizeState) (msgW msgH : ℚ) (W H : ℤ)
    (hvis : st.isVisible = true)
    (hcw : st.canvas.width = W) (hch : st.canvas.height = H)
    (hW2 : roundQ (resolveDim msgW st.nodeOffsetWidth) = W)
    (hH2 : roundQ (resolveDim msgH st.nodeOffsetHeight) = H) :
    (onResize st msgW msgH).2 = [] ∧
    (onResize st msgW msgH).1.canvas.width = W ∧
    (onResize st msgW msgH).1.canvas.height = H ∧
    (∀ px py : ℤ, 0 ≤ px → px < W → 0 ≤ py → py < H →
      (onResize st msgW msgH).1.canvas.data px py = st.canvas.data px py) := by
  have hstep : onResize st msgW msgH =
      ({ st with
          buffer := if 0 < W ∧ 0 < H ∧ 0 < W ∧ 0 < H then
              (st.buffer.setSize W H).drawImage st.canvas
            else st.buffer.setSize W H,
          canvas := if 0 < W ∧ 0 < H ∧ 0 < W ∧ 0 < H then
              (st.canvas.setSize W H).drawImage
                (if 0 < W ∧ 0 < H ∧ 0 < W ∧ 0 < H then
                  (st.buffer.setSize W H).drawImage st.canvas
                 else st.buffer.setSize W H)
            else st.canvas.setSize W H },
        (if 0 < max 0 (W - W) then
          [Effect.paint (W : ℚ) 0 ((max 0 (W - W) : ℤ) : ℚ) (H : ℚ)]
         else []) ++
        (if 0 < max 0 (H - H) then
          [Effect.paint 0 (H : ℚ) ((W : ℚ) - ((max 0 (W - W) : ℤ) : ℚ))
            ((max 0 (H - H) : ℤ) : ℚ)]
         else [])) := by
    simp only [onResize, hvis, Bool.not_true, Bool.false_eq_true, if_false,
      hcw, hch, hW2, hH2]
  refine ⟨?_, ?_, ?_, ?_⟩
  · rw [hstep]
    norm_num
  · rw [hstep]
    dsimp only
    split_ifs <;> rfl
  · rw [hstep]
    dsimp only
    split_ifs <;> rfl
  · intro px py h1 h2 h3 h4
    rw [hstep]
    dsimp only
    split_ifs with hb
    · simp only [Canvas.drawImage, Canvas.setSize, hcw, hch]
      split_ifs with ho
      · rfl
      · omega
    · push_neg at hb
      omega

/-- C9 witness: the same-size resize of the 1×1 state issues no repaint
and leaves the canvas (though not the buffer) unchanged. -/
theorem onResize_same_size_no_repaint_instance :
    (resizeState1.isVisible = true ∧
     resizeState1.canvas.width = 1 ∧ resizeState1.canvas.height = 1 ∧
     roundQ (resolveDim 1 resizeState1.nodeOffsetWidth) = 1 ∧
     roundQ (resolveDim 1 resizeState1.nodeOffsetHeight) = 1) ∧
    ((onResize resizeState1 1 1).2 = [] ∧
     (onResize resizeState1 1 1).1.canvas.width = 1 ∧
     (onResize resizeState1 1 1).1.canvas.height = 1 ∧
     (∀ px py : ℤ, 0 ≤ px → px < 1 → 0 ≤ py → py < 1 →
       (onResize resizeState1 1 1).1.canvas.data px py =
         resizeState1.canvas.data px py)) :=
  ⟨⟨rfl, rfl, rfl,
    by norm_num [roundQ, resolveDim, resizeState1],
    by norm_num [roundQ, resolveDim, resizeState1]⟩,
   onResize_same_size_no_repaint resizeState1 1 1 1 1 rfl rfl rfl
     (by norm_num [roundQ, resolveDim, resizeState1])
     (by norm_num [roundQ, resolveDim, resizeState1])⟩

theorem max0_add (d : ℚ) : max 0 (-d) + max 0 d = |d| := by
  rcases le_total d 0 with h | h
  · rw [max_eq_right (by linarith), max_eq_left h, abs_of_nonpos h]
    ring
  · rw [max_eq_left (by linarith), max_eq_right h, abs_of_nonneg h]
    ring

theorem max0_sub (d : ℚ) : max 0 d - max 0 (-d) = d := by
  rcases le_total d 0 with h | h
  · rw [max_eq_left h, max_eq_right (by linarith : (0 : ℚ) ≤ -d)]
    ring
  · rw [max_eq_right h, max_eq_left (by linarith : -d ≤ (0 : ℚ))]
    ring

theorem axisVars_fin (n : ℕ) (q : ℚ) :
    axisVars n (JSNum.fin q) =
      ⟨max 0 q, max 0 (-q), (n : ℚ) - |q|, max 0 (-q), max 0 q⟩ := by
  rcases lt_trichotomy q 0 with h | h | h
  · rw [axisVars, if_pos (by simp only [jlt, decide_eq_true_eq]; exact h)]
    simp only [jneg, JSNum.toQ]
    rw [max_eq_left h.le, max_eq_right (by linarith : (0 : ℚ) ≤ -q),
      abs_of_neg h]
  · subst h
    simp [axisVars, jlt]
  · rw [axisVars, if_neg (by simp only [jlt, decide_eq_true_eq]; linarith),
      if_pos (by simp only [jlt, decide_eq_true_eq]; exact h)]
    simp only [JSNum.toQ]
    rw [max_eq_right h.le, max_eq_left (by linarith : -q ≤ (0 : ℚ)),
      abs_of_pos h]

theorem marginPaints_eq (w h d e : ℚ) (hh : 0 < h) (hdlt : |d| < w) :
    marginPaints w h d e =
      (if 0 < max 0 (-d) then [Effect.paint 0 0 (max 0 (-d)) h] else []) ++
      (if 0 < max 0 d then
        [Effect.paint (w - max 0 d) 0 (max 0 d) h] else []) ++
      (if 0 < max 0 (-e) then
        [Effect.paint (max 0 (-d)) 0 (w - max 0 (-d) - max 0 d)
          (max 0 (-e))] else []) ++
      (if 0 < max 0 e then
        [Effect.paint (max 0 (-d)) (h - max 0 e) (w - max 0 (-d) - max 0 d)
          (max 0 e)] else []) := by
  have hmid : 0 < w - max 0 (-d) - max 0 d := by
    have := max0_add d
    linarith
  have hL : (0 < max 0 (-d) ∧ 0 < h) ↔ 0 < max 0 (-d) := and_iff_left hh
  have hR : (0 < max 0 d ∧ 0 < h) ↔ 0 < max 0 d := and_iff_left hh
  have hT : (0 < w - max 0 (-d) - max 0 d ∧ 0 < max 0 (-e)) ↔
      0 < max 0 (-e) := and_iff_right hmid
  have hB : (0 < w - max 0 (-d) - max 0 d ∧ 0 < max 0 e) ↔
      0 < max 0 e := and_iff_right hmid
  simp only [marginPaints, leftStrip, rightStrip, topStrip, bottomStrip,
    List.filter_cons, List.filter_nil, decide_eq_true_eq, hL, hR, hT, hB]
  split_ifs <;> simp [stripPaint]

theorem scrollTo_blit_eq
    (st : ScrollState) (x y : JSNum) (sx sy cx cy d e : ℚ)
    (hsx : st.scrollX = JSNum.fin sx) (hsy : st.scrollY = JSNum.fin sy)
    (hx : scrollCoerce x = JSNum.fin cx) (hy : scrollCoerce y = JSNum.fin cy)
    (hvis : st.isVisible = true)
    (hd : cx - sx = d) (he : cy - sy = e)
    (hdlt : |d| < (st.canvasWidth : ℚ)) (helt : |e| < (st.canvasHeight : ℚ))
    (hne : ¬(d = 0 ∧ e = 0)) :
    (scrollTo st x y).2 =
      Effect.blit (max 0 d) (max 0 e) ((st.canvasWidth : ℚ) - |d|)
        ((st.canvasHeight : ℚ) - |e|) (max 0 (-d)) (max 0 (-e)) ::
      marginPaints (st.canvasWidth : ℚ) (st.canvasHeight : ℚ) d e := by
  have habs := abs_nonneg d
  have habs2 := abs_nonneg e
  have hwQ : (0 : ℚ) < st.canvasWidth := by linarith
  have hhQ : (0 : ℚ) < st.canvasHeight := by linarith
  have hw : st.canvasWidth ≠ 0 := by
    intro h0
    rw [h0] at hwQ
    simp at hwQ
  have hh : st.canvasHeight ≠ 0 := by
    intro h0
    rw [h0] at hhQ
    simp at hhQ
  simp only [scrollTo, hx, hy, hsx, hsy, jsub, hd, he, jisZero, jabs, jle]
  split
  next h =>
    rw [Bool.and_eq_true, decide_eq_true_eq, decide_eq_true_eq] at h
    exact absurd h hne
  next =>
    split
    next h =>
      rw [hvis] at h
      simp at h
    next =>
      split
      next h =>
        rw [Bool.or_eq_true, decide_eq_true_eq, decide_eq_true_eq] at h
        rcases h with h | h
        · exact absurd h hw
        · exact absurd h hh
      next =>
        split
        next h =>
          rw [Bool.or_eq_true, decide_eq_true_eq, decide_eq_true_eq] at h
          rcases h with h | h <;> linarith
        next =>
          rw [axisVars_fin, axisVars_fin,
            marginPaints_eq _ _ _ _ hhQ hdlt]

theorem scrollStrips_pairwise_disjoint (w h d e : ℚ)
    (hdlt : |d| < w) (helt : |e| < h) :
    List.Pairwise (fun r1 r2 => ∀ p : ℚ × ℚ, ¬(r1.mem p ∧ r2.mem p))
      (scrollStrips w h d e) := by
  have hsum := max0_add d
  have hsum2 := max0_add e
  have h1 : (0 : ℚ) ≤ max 0 (-d) := le_max_left _ _
  have h2 : (0 : ℚ) ≤ max 0 d := le_max_left _ _
  have h3 : (0 : ℚ) ≤ max 0 (-e) := le_max_left _ _
  have h4 : (0 : ℚ) ≤ max 0 e := le_max_left _ _
  have hLR : ∀ p : ℚ × ℚ,
      ¬((leftStrip w h d e).mem p ∧ (rightStrip w h d e).mem p) := by
    rintro p ⟨hA, hB⟩
    simp only [QRect.mem, leftStrip, rightStrip] at hA hB
    obtain ⟨a1, a2, a3, a4⟩ := hA
    obtain ⟨b1, b2, b3, b4⟩ := hB
    linarith
  have hLT : ∀ p : ℚ × ℚ,
      ¬((leftStrip w h d e).mem p ∧ (topStrip w h d e).mem p) := by
    rintro p ⟨hA, hB⟩
    simp only [QRect.mem, leftStrip, topStrip] at hA hB
    obtain ⟨a1, a2, a3, a4⟩ := hA
    obtain ⟨b1, b2, b3, b4⟩ := hB
    linarith
  have hLB : ∀ p : ℚ × ℚ,
      ¬((leftStrip w h d e).mem p ∧ (bottomStrip w h d e).mem p) := by
    rintro p ⟨hA, hB⟩
    simp only [QRect.mem, leftStrip, bottomStrip] at hA hB
    obtain ⟨a1, a2, a3, a4⟩ := hA
    obtain ⟨b1, b2, b3, b4⟩ := hB
    linarith
  have hRT : ∀ p : ℚ × ℚ,
      ¬((rightStrip w h d e).mem p ∧ (topStrip w h d e).mem p) := by
    rintro p ⟨hA, hB⟩
    simp only [QRect.mem, rightStrip, topStrip] at hA hB
    obtain ⟨a1, a2, a3, a4⟩ := hA
    obtain ⟨b1, b2, b3, b4⟩ := hB
    linarith
  have hRB : ∀ p : ℚ × ℚ,
      ¬((rightStrip w h d e).mem p ∧ (bottomStrip w h d e).mem p) := by
    rintro p ⟨hA, hB⟩
    simp only [QRect.mem, rightStrip, bottomStrip] at hA hB
    obtain ⟨a1, a2, a3, a4⟩ := hA
    obtain ⟨b1, b2, b3, b4⟩ := hB
    linarith
  have hTB : ∀ p : ℚ × ℚ,
      ¬((topStrip w h d e).mem p ∧ (bottomStrip w h d e).mem p) := by
    rintro p ⟨hA, hB⟩
    simp only [QRect.mem, topStrip, bottomStrip] at hA hB
    obtain ⟨a1, a2, a3, a4⟩ := hA
    obtain ⟨b1, b2, b3, b4⟩ := hB
    linarith
  refine List.Pairwise.cons ?_ (List.Pairwise.cons ?_
    (List.Pairwise.cons ?_ (List.Pairwise.cons ?_ List.Pairwise.nil)))
  · intro r hr
    fin_cases hr
    · exact hLR
    · exact hLT
    · exact hLB
  · intro r hr
    fin_cases hr
    · exact hRT
    · exact hRB
  · intro r hr
    fin_cases hr
    exact hTB
  · intro r hr
    exact absurd hr (List.not_mem_nil r)

theorem scrollStrips_union (w h d e : ℚ) (hdlt : |d| < w) (helt : |e| < h) :
    ∀ p : ℚ × ℚ, (∃ r ∈ scrollStrips w h d e, r.mem p) ↔
      ((surfaceRect w h).mem p ∧ ¬(blitDest w h d e).mem p) := by
  have hsum := max0_add d
  have hsum2 := max0_add e
  have h1 : (0 : ℚ) ≤ max 0 (-d) := le_max_left _ _
  have h2 : (0 : ℚ) ≤ max 0 d := le_max_left _ _
  have h3 : (0 : ℚ) ≤ max 0 (-e) := le_max_left _ _
  have h4 : (0 : ℚ) ≤ max 0 e := le_max_left _ _
  rintro ⟨px, py⟩
  simp only [scrollStrips, List.mem_cons, List.not_mem_nil, or_false,
    exists_eq_or_imp, exists_eq_left, QRect.mem, leftStrip, rightStrip,
    topStrip, bottomStrip, surfaceRect, blitDest]
  constructor
  · rintro (⟨a1, a2, a3, a4⟩ | ⟨a1, a2, a3, a4⟩ | ⟨a1, a2, a3, a4⟩ |
      ⟨a1, a2, a3, a4⟩) <;>
      refine ⟨⟨by linarith, by linarith, by linarith, by linarith⟩, ?_⟩ <;>
      rintro ⟨b1, b2, b3, b4⟩ <;> linarith
  · rintro ⟨⟨s1, s2, s3, s4⟩, hnd⟩
    by_cases hL : px < max 0 (-d)
    · exact Or.inl ⟨s1, by linarith, s3, by linarith⟩
    · push_neg at hL
      by_cases hR : w - max 0 d ≤ px
      · exact Or.inr (Or.inl ⟨hR, by linarith, s3, by linarith⟩)
      · push_neg at hR
        by_cases hT : py < max 0 (-e)
        · exact Or.inr (Or.inr (Or.inl ⟨hL, by linarith, s3, by linarith⟩))
        · push_neg at hT
          by_cases hB : h - max 0 e ≤ py
          · exact Or.inr (Or.inr (Or.inr ⟨hL, by linarith, hB, by linarith⟩))
          · push_neg at hB
            exfalso
            exact hnd ⟨hL, by linarith, hT, by linarith⟩

theorem inRect_eq_false {r : QRect} {px py : ℚ} (h : ¬r.mem (px, py)) :
    inRect r.x r.y r.w r.h px py = false := by
  rw [inRect, decide_eq_false_iff_not]
  exact h

theorem applyEffects_paint_miss (painter : ℚ → ℚ → ℚ → ℚ → ℚ → ℚ → ℤ)
    (px py : ℚ) :
    ∀ (l : List Effect) (s : PixelMap),
      (∀ eff ∈ l, ∃ rx ry rw rh, eff = Effect.paint rx ry rw rh ∧
        inRect rx ry rw rh px py = false) →
      applyEffects painter s l px py = s px py := by
  intro l
  induction l with
  | nil =>
      intro s _
      rfl
  | cons eff rest ih =>
      intro s hall
      obtain ⟨rx, ry, rw, rh, heq, hmiss⟩ := hall eff (List.mem_cons_self _ _)
      subst heq
      have hstep : applyEffects painter s (Effect.paint rx ry rw rh :: rest) =
          applyEffects painter
            (applyEffect painter s (Effect.paint rx ry rw rh)) rest := rfl
      rw [hstep, ih _ (fun ef hef => hall ef (List.mem_cons_of_mem _ hef))]
      simp [applyEffect, hmiss]

theorem marginPaints_sub (w h d e : ℚ) :
    ∀ eff ∈ marginPaints w h d e,
      ∃ r ∈ scrollStrips w h d e, eff = stripPaint r := by
  intro eff heff
  simp only [marginPaints, List.mem_map, List.mem_filter] at heff
  obtain ⟨r, ⟨hr, _⟩, heq⟩ := heff
  exact ⟨r, hr, heq.symm⟩

theorem blit_copies_dest (w h d e : ℚ) (hdlt : |d| < w) (helt : |e| < h)
    (painter : ℚ → ℚ → ℚ → ℚ → ℚ → ℚ → ℤ) (s : PixelMap) (px py : ℚ)
    (hmem : (blitDest w h d e).mem (px, py)) :
    applyEffects painter s
      (Effect.blit (max 0 d) (max 0 e) (w - |d|) (h - |e|)
        (max 0 (-d)) (max 0 (-e)) :: marginPaints w h d e) px py =
      s (px + d) (py + e) := by
  have hsum := max0_add d
  have hsum2 := max0_add e
  have hmiss : ∀ eff ∈ marginPaints w h d e,
      ∃ rx ry rw rh, eff = Effect.paint rx ry rw rh ∧
        inRect rx ry rw rh px py = false := by
    intro eff heff
    obtain ⟨r, hr, heq⟩ := marginPaints_sub w h d e eff heff
    subst heq
    refine ⟨r.x, r.y, r.w, r.h, rfl, inRect_eq_false ?_⟩
    intro hrmem
    exact ((scrollStrips_union w h d e hdlt helt (px, py)).mp
      ⟨r, hr, hrmem⟩).2 hmem
  obtain ⟨m1, m2, m3, m4⟩ := hmem
  simp only [blitDest] at m1 m2 m3 m4
  have hin : inRect (max 0 (-d)) (max 0 (-e)) (w - |d|) (h - |e|) px py =
      true := by
    rw [inRect, decide_eq_true_eq]
    exact ⟨m1, by linarith, m3, by linarith⟩
  have hstep : applyEffects painter s
      (Effect.blit (max 0 d) (max 0 e) (w - |d|) (h - |e|)
        (max 0 (-d)) (max 0 (-e)) :: marginPaints w h d e) px py =
      applyEffects painter
        (applyEffect painter s
          (Effect.blit (max 0 d) (max 0 e) (w - |d|) (h - |e|)
            (max 0 (-d)) (max 0 (-e)))) (marginPaints w h d e) px py := rfl
  rw [hstep, applyEffects_paint_miss painter px py _ _ hmiss]
  simp only [applyEffect, hin, if_true]
  have e1 : px - max 0 (-d) + max 0 d = px + d := by
    have := max0_sub d
    linarith
  have e2 : py - max 0 (-e) + max 0 e = py + e := by
    have := max0_sub e
    linarith
  rw [e1, e2]

theorem marginPaints_horizontal (w h d : ℚ) (hdlt : |d| < w) (hh : 0 < h)
    (hd0 : d ≠ 0) :
    ∃ r ∈ scrollStrips w h d 0, marginPaints w h d 0 = [stripPaint r] ∧
      r.w = |d| ∧ r.h = h := by
  rcases lt_or_gt_of_ne hd0 with hneg | hpos
  · have hmL : max 0 (-d) = -d := max_eq_right (by linarith)
    have hmR : max 0 d = 0 := max_eq_left (by linarith)
    refine ⟨leftStrip w h d 0, by simp [scrollStrips], ?_, ?_, rfl⟩
    · rw [marginPaints_eq w h d 0 hh hdlt]
      simp [hmL, hmR, stripPaint, leftStrip,
        (show (0 : ℚ) < -d by linarith)]
    · simp [leftStrip, hmL, abs_of_neg hneg]
  · have hmL : max 0 (-d) = 0 := max_eq_left (by linarith)
    have hmR : max 0 d = d := max_eq_right (by linarith)
    refine ⟨rightStrip w h d 0, by simp [scrollStrips], ?_, ?_, rfl⟩
    · rw [marginPaints_eq w h d 0 hh hdlt]
      simp [hmL, hmR, stripPaint, rightStrip, hpos]
    · simp [rightStrip, hmR, abs_of_pos hpos]

/-- C1: for a visible surface of non-zero area and a post-coercion delta
`(d, e) ≠ (0, 0)` with `|d| < width` and `|e| < height`, `scrollTo` emits
exactly one self-blit of the still-valid sub-image followed by the
repaints of the up-to-four margin strips with positive area (first
conjunct; `marginPaints` holds only `paint` effects by construction).
The four strips are pairwise disjoint (second conjunct) and their union
is exactly the surface rectangle minus the blit's destination rectangle
(third conjunct).  Pixels inside the destination rectangle are copies of
the pre-scroll pixels shifted by the delta, whatever the paint pipeline
draws inside the margin rects (fourth conjunct).  For a pure horizontal
scroll (`e = 0`), the margin repaints consist of exactly one full-height
strip of width `|d|` (fifth conjunct). -/
theorem scrollTo_blit_and_margins
    (st : ScrollState) (x y : JSNum) (sx sy cx cy d e : ℚ)
    (hsx : st.scrollX = JSNum.fin sx) (hsy : st.scrollY = JSNum.fin sy)
    (hx : scrollCoerce x = JSNum.fin cx) (hy : scrollCoerce y = JSNum.fin cy)
    (hvis : st.isVisible = true)
    (hd : cx - sx = d) (he : cy - sy = e)
    (hdlt : |d| < (st.canvasWidth : ℚ)) (helt : |e| < (st.canvasHeight : ℚ))
    (hne : ¬(d = 0 ∧ e = 0)) :
    ((scrollTo st x y).2 =
      Effect.blit (max 0 d) (max 0 e) ((st.canvasWidth : ℚ) - |d|)
        ((st.canvasHeight : ℚ) - |e|) (max 0 (-d)) (max 0 (-e)) ::
      marginPaints (st.canvasWidth : ℚ) (st.canvasHeight : ℚ) d e) ∧
    List.Pairwise (fun r1 r2 => ∀ p : ℚ × ℚ, ¬(r1.mem p ∧ r2.mem p))
      (scrollStrips (st.canvasWidth : ℚ) (st.canvasHeight : ℚ) d e) ∧
    (∀ p : ℚ × ℚ,
      (∃ r ∈ scrollStrips (st.canvasWidth : ℚ) (st.canvasHeight : ℚ) d e,
        r.mem p) ↔
      ((surfaceRect (st.canvasWidth : ℚ) (st.canvasHeight : ℚ)).mem p ∧
       ¬(blitDest (st.canvasWidth : ℚ) (st.canvasHeight : ℚ) d e).mem p)) ∧
    (∀ (painter : ℚ → ℚ → ℚ → ℚ → ℚ → ℚ → ℤ) (s : PixelMap) (px py : ℚ),
      (blitDest (st.canvasWidth : ℚ) (st.canvasHeight : ℚ) d e).mem
        (px, py) →
      applyEffects painter s ((scrollTo st x y).2) px py =
        s (px + d) (py + e)) ∧
    (e = 0 →
      ∃ r ∈ scrollStrips (st.canvasWidth : ℚ) (st.canvasHeight : ℚ) d e,
        marginPaints (st.canvasWidth : ℚ) (st.canvasHeight : ℚ) d e =
          [stripPaint r] ∧
        r.w = |d| ∧ r.h = (st.canvasHeight : ℚ)) := by
  have heq := scrollTo_blit_eq st x y sx sy cx cy d e hsx hsy hx hy hvis
    hd he hdlt helt hne
  refine ⟨heq, scrollStrips_pairwise_disjoint _ _ d e hdlt helt,
    scrollStrips_union _ _ d e hdlt helt, ?_, ?_⟩
  · intro painter s px py hmem
    rw [heq]
    exact blit_copies_dest _ _ d e hdlt helt painter s px py hmem
  · intro he0
    subst he0
    have hh : (0 : ℚ) < st.canvasHeight := by
      have := abs_nonneg (0 : ℚ)
      linarith
    exact marginPaints_horizontal _ _ d hdlt hh
      (fun hd0 => hne ⟨hd0, rfl⟩)

/-- C1 witness: a 4×3 visible canvas at scroll (0,0) scrolled to x = 2
(pure horizontal delta d = 2 < 4). -/
theorem scrollTo_blit_and_margins_instance :
    ((⟨JSNum.fin 0, JSNum.fin 0, 4, 3, true⟩ : ScrollState).scrollX =
       JSNum.fin 0 ∧
     scrollCoerce (JSNum.fin 2) = JSNum.fin 2 ∧
     scrollCoerce (JSNum.fin 0) = JSNum.fin 0 ∧
     (2 : ℚ) - 0 = 2 ∧ (0 : ℚ) - 0 = 0 ∧
     |(2 : ℚ)| < ((4 : ℕ) : ℚ) ∧ |(0 : ℚ)| < ((3 : ℕ) : ℚ) ∧
     ¬((2 : ℚ) = 0 ∧ (0 : ℚ) = 0)) ∧
    (((scrollTo ⟨JSNum.fin 0, JSNum.fin 0, 4, 3, true⟩ (JSNum.fin 2)
        (JSNum.fin 0)).2 =
      Effect.blit (max 0 2) (max 0 0) (((4 : ℕ) : ℚ) - |(2 : ℚ)|)
        (((3 : ℕ) : ℚ) - |(0 : ℚ)|) (max 0 (-2)) (max 0 (-0)) ::
      marginPaints ((4 : ℕ) : ℚ) ((3 : ℕ) : ℚ) 2 0) ∧
    List.Pairwise (fun r1 r2 => ∀ p : ℚ × ℚ, ¬(r1.mem p ∧ r2.mem p))
      (scrollStrips ((4 : ℕ) : ℚ) ((3 : ℕ) : ℚ) 2 0) ∧
    (∀ p : ℚ × ℚ,
      (∃ r ∈ scrollStrips ((4 : ℕ) : ℚ) ((3 : ℕ) : ℚ) 2 0, r.mem p) ↔
      ((surfaceRect ((4 : ℕ) : ℚ) ((3 : ℕ) : ℚ)).mem p ∧
       ¬(blitDest ((4 : ℕ) : ℚ) ((3 : ℕ) : ℚ) 2 0).mem p)) ∧
    (∀ (painter : ℚ → ℚ → ℚ → ℚ → ℚ → ℚ → ℤ) (s : PixelMap) (px py : ℚ),
      (blitDest ((4 : ℕ) : ℚ) ((3 : ℕ) : ℚ) 2 0).mem (px, py) →
      applyEffects painter s
        ((scrollTo ⟨JSNum.fin 0, JSNum.fin 0, 4, 3, true⟩ (JSNum.fin 2)
          (JSNum.fin 0)).2) px py = s (px + 2) (py + 0)) ∧
    ((0 : ℚ) = 0 →
      ∃ r ∈ scrollStrips ((4 : ℕ) : ℚ) ((3 : ℕ) : ℚ) 2 0,
        marginPaints ((4 : ℕ) : ℚ) ((3 : ℕ) : ℚ) 2 0 = [stripPaint r] ∧
        r.w = |(2 : ℚ)| ∧ r.h = ((3 : ℕ) : ℚ))) :=
  ⟨⟨rfl, by norm_num [scrollCoerce, jround, jmax0],
    by norm_num [scrollCoerce, jround, jmax0],
    by norm_num, by norm_num, by norm_num, by norm_num, by norm_num⟩,
   scrollTo_blit_and_margins ⟨JSNum.fin 0, JSNum.fin 0, 4, 3, true⟩
     (JSNum.fin 2) (JSNum.fin 0) 0 0 2 0 2 0 rfl rfl
     (by norm_num [scrollCoerce, jround, jmax0])
     (by norm_num [scrollCoerce, jround, jmax0])
     rfl (by norm_num) (by norm_num) (by norm_num) (by norm_num)
     (by norm_num)⟩
